import Mathlib

/-!
Verification development for the events aggregation pipeline
(`src/services/eventService.js`): a shallow embedding of its string and
date utilities, the five source adapters, the aggregator, the filter
engine, the keyword matcher, the URL builder and the registration store,
together with theorems about the embedded definitions.

Modelling conventions, used throughout:

+ JavaScript strings are modelled by `String` (lists of characters);
  `String.length` models the JS `length` (the inputs of interest contain
  no surrogate pairs, so code-unit counts and character counts agree).
+ JS `Date` instants are modelled by milliseconds since the epoch as
  `Int`; an invalid `Date` is `none` in `Option Int`.  Local time is
  modelled as UTC (no claim depends on the zone offset).
+ The HTTP and DOM capabilities are external to the core (per the
  design): a fetched page is modelled by the queryable data the code
  reads from it (anchor hrefs and text, table cell texts, headings,
  paragraph texts, body text).  A whole fetch that fails is `Except.error`.
+ JS regular expressions are hand compiled to matchers over `List Char`.
  Every quantifier in the source patterns is greedy, and in each pattern
  the character class of a quantified atom is disjoint from whatever can
  follow it (a digit run is followed by a literal `.`, `:` or whitespace,
  a word run by whitespace or a literal dot, and trailing groups are all
  optional), so maximal munch at each start position, searching start
  positions left to right, is exactly the backtracking semantics of the
  source regexes.
-/

/-- The whitespace characters recognised by the JS `\s` class and by
`String.prototype.trim` that occur in this pipeline (space, tab, line
feed, carriage return, vertical tab, form feed, no-break space). -/
def isJsSpace (c : Char) : Bool :=
  c == ' ' || c == '\t' || c == '\n' || c == '\r' ||
  c == Char.ofNat 11 || c == Char.ofNat 12 || c == Char.ofNat 160

/-- JS `toLowerCase` restricted to the characters this pipeline can meet:
ASCII letters and the Latin-1 accented capitals are lowered, everything
else is unchanged. -/
def jsToLowerChar (c : Char) : Char :=
  if 65 ≤ c.toNat && c.toNat ≤ 90 then Char.ofNat (c.toNat + 32)
  else if 192 ≤ c.toNat && c.toNat ≤ 222 && c.toNat != 215 then Char.ofNat (c.toNat + 32)
  else c

/-- JS `toLowerCase` on a whole string. -/
def jsToLower (s : String) : String := String.mk (s.data.map jsToLowerChar)

/-- Whether `pat` is a prefix of `l` (character lists). -/
def charsPrefOf : List Char → List Char → Bool
  | [], _ => true
  | _ :: _, [] => false
  | a :: as, b :: bs => a == b && charsPrefOf as bs

/-- Whether `needle` occurs as a contiguous run inside `hay`; models
JS `String.prototype.includes`. -/
def charsHasRun (needle : List Char) : List Char → Bool
  | [] => charsPrefOf needle []
  | hay@(_ :: rest) => charsPrefOf needle hay || charsHasRun needle rest

/-- JS `s.includes(sub)`. -/
def jsIncludes (s sub : String) : Bool := charsHasRun sub.data s.data

/-- JS `String.prototype.trim`. -/
def jsTrim (s : String) : String :=
  String.mk (((s.data.dropWhile isJsSpace).reverse.dropWhile isJsSpace).reverse)

/-- JS truthiness of a possibly absent string field: `undefined`/`null`
and the empty string are falsy, every other string is truthy. -/
def jsTruthyOpt : Option String → Bool
  | none => false
  | some s => !s.data.isEmpty

/-- Maximal leading run of decimal digits (the greedy `\d*`). -/
def takeDigits : List Char → (List Char × List Char)
  | [] => ([], [])
  | c :: rest =>
    if c.isDigit then
      let (ds, r) := takeDigits rest
      (c :: ds, r)
    else ([], c :: rest)

/-- Greedy `\d+`: at least one digit, maximal run. -/
def digits1 (l : List Char) : Option (List Char × List Char) :=
  match takeDigits l with
  | ([], _) => none
  | (ds, r) => some (ds, r)

/-- Numeric value of a digit list (most significant first). -/
def natOfDigits (l : List Char) : Nat :=
  l.foldl (fun acc c => acc * 10 + (c.toNat - 48)) 0

/-- Greedy `\d{1,2}`: one or two digits, preferring two. -/
def digitsMax2 : List Char → Option (Nat × List Char)
  | [] => none
  | [c] => if c.isDigit then some (natOfDigits [c], []) else none
  | c1 :: c2 :: rest =>
    if c1.isDigit then
      if c2.isDigit then some (natOfDigits [c1, c2], rest)
      else some (natOfDigits [c1], c2 :: rest)
    else none

/-- `\d{2}`: exactly two digits. -/
def digitsExact2 : List Char → Option (Nat × List Char)
  | c1 :: c2 :: rest =>
    if c1.isDigit && c2.isDigit then some (natOfDigits [c1, c2], rest) else none
  | _ => none

/-- `\d{4}`: exactly four digits. -/
def digitsExact4 : List Char → Option (Nat × List Char)
  | c1 :: c2 :: c3 :: c4 :: rest =>
    if c1.isDigit && c2.isDigit && c3.isDigit && c4.isDigit then
      some (natOfDigits [c1, c2, c3, c4], rest)
    else none
  | _ => none

/-- Optional `(\d{2})?` group: consume two digits when the next two
characters are digits, otherwise consume nothing. -/
def digits2Opt : List Char → (Option Nat × List Char)
  | c1 :: c2 :: rest =>
    if c1.isDigit && c2.isDigit then (some (natOfDigits [c1, c2]), rest)
    else (none, c1 :: c2 :: rest)
  | l => (none, l)

/-- A character of the JS `\w` class. -/
def isWordChar (c : Char) : Bool :=
  c.isAlpha || c.isDigit || c == '_'

/-- Maximal leading run of `\w` characters. -/
def takeWordChars : List Char → (List Char × List Char)
  | [] => ([], [])
  | c :: rest =>
    if isWordChar c then
      let (ws, r) := takeWordChars rest
      (c :: ws, r)
    else ([], c :: rest)

/-- Greedy `\w+`: at least one word character, maximal run. -/
def word1 (l : List Char) : Option (List Char × List Char) :=
  match takeWordChars l with
  | ([], _) => none
  | (ws, r) => some (ws, r)

/-- Literal characters: consume exactly `pat`, fail otherwise. -/
def charsLit : List Char → List Char → Option (List Char)
  | [], l => some l
  | _ :: _, [] => none
  | p :: ps, c :: cs => if p == c then charsLit ps cs else none

/-- Case-insensitive literal (both sides lowered with the JS table). -/
def charsLitCI : List Char → List Char → Option (List Char)
  | [], l => some l
  | _ :: _, [] => none
  | p :: ps, c :: cs =>
    if jsToLowerChar p == jsToLowerChar c then charsLitCI ps cs else none

/-- `\s+`: at least one whitespace character, maximal run. -/
def skipWs1 (l : List Char) : Option (List Char) :=
  match l with
  | c :: rest => if isJsSpace c then some (rest.dropWhile isJsSpace) else none
  | [] => none

/-- Try a matcher at every start position from left to right; models an
unanchored regex search over a string. -/
def searchAt {α : Type} (m : List Char → Option α) : List Char → Option α
  | [] => m []
  | l@(_ :: rest) =>
    match m l with
    | some r => some r
    | none => searchAt m rest

/-- JS `parseInt(s)` in base 10: leading whitespace, an optional sign, a
maximal digit run; `NaN` (here `none`) without any digit.  (The hex form
`0x...` never reaches this pipeline and is not modelled.) -/
def jsParseInt (s : String) : Option Int :=
  let l := s.data.dropWhile isJsSpace
  match l with
  | '+' :: rest => (digits1 rest).map (fun p => Int.ofNat (natOfDigits p.1))
  | '-' :: rest => (digits1 rest).map (fun p => -Int.ofNat (natOfDigits p.1))
  | rest => (digits1 rest).map (fun p => Int.ofNat (natOfDigits p.1))

/-- An exact nonnegative decimal value as a reduced fraction (all the
numbers this pipeline parses with `parseFloat` are nonnegative decimal
fractions, which a binary float JS number represents one-to-one here
only through its numeric comparisons, all of which are exact on such
values). -/
structure JsDecimal where
  num : Nat
  den : Nat
deriving Repr, DecidableEq

/-- Build a reduced fraction. -/
def mkJsDecimal (n d : Nat) : JsDecimal :=
  let g := Nat.gcd n d
  if g == 0 then { num := n, den := d } else { num := n / g, den := d / g }

/-- A JS number that is either `NaN` (`none`) or an exact value. -/
abbrev JsNum := Option JsDecimal

/-- JS `parseFloat` on a string drawn from the `[\d.]+` class: integer
part, optional dot, fractional part; `NaN` when no digit is read before
the parse stops. -/
def jsParseFloat (s : String) : JsNum :=
  let (ip, r) := takeDigits s.data
  match r with
  | '.' :: r2 =>
    let (fp, _) := takeDigits r2
    if ip.isEmpty && fp.isEmpty then none
    else some (mkJsDecimal (natOfDigits ip * 10 ^ fp.length + natOfDigits fp) (10 ^ fp.length))
  | _ => if ip.isEmpty then none else some (mkJsDecimal (natOfDigits ip) 1)

/-- Days from the epoch to the first day of the civil month `(y, m)` with
`m` between 1 and 12 (the standard civil-from-days arithmetic). -/
def daysFromCivil (y m d : Int) : Int :=
  let yy := if m ≤ 2 then y - 1 else y
  let era := Int.fdiv yy 400
  let yoe := yy - era * 400
  let mp := Int.emod (m + 9) 12
  let doy := Int.fdiv (153 * mp + 2) 5 + d - 1
  let doe := yoe * 365 + Int.fdiv yoe 4 - Int.fdiv yoe 100 + doy
  era * 146097 + doe - 719468

/-- The epoch milliseconds of `new Date(year, monthIndex, day, hours,
minutes)`: years 0 to 99 map to 1900 to 1999, the month index is
normalised into the year (JS overflow behaviour), day, hour and minute
overflow linearly. -/
def mkJsDateMs (y mo d h mi : Int) : Int :=
  let yAdj := if 0 ≤ y && y ≤ 99 then y + 1900 else y
  let yNorm := yAdj + Int.fdiv mo 12
  let mNorm := Int.emod mo 12 + 1
  daysFromCivil yNorm mNorm 1 * 86400000 + (d - 1) * 86400000 +
    h * 3600000 + mi * 60000

/-- The largest magnitude of a valid JS `Date` in milliseconds. -/
def jsDateMaxMs : Nat := 8640000000000000

/-- `new Date(ms)`: a valid instant inside the representable range,
otherwise the invalid date (`none`). -/
def jsDateFromMs (ms : Int) : Option Int :=
  if ms.natAbs ≤ jsDateMaxMs then some ms else none

/-- `new Date(y, mo, d, h, mi)` as a possibly invalid instant. -/
def mkJsDate (y mo d h mi : Int) : Option Int :=
  jsDateFromMs (mkJsDateMs y mo d h mi)

/-- `new Date(y, mo, d, h, mi)` whose month came from a table lookup
that may have produced `undefined`; an undefined month makes the date
invalid. -/
def mkJsDateOptMonth (y : Int) (mo : Option Int) (d h mi : Int) : Option Int :=
  match mo with
  | none => none
  | some m => mkJsDate y m d h mi

/-- The match data of the dotted-date regex
`(\d{1,2})\.(\d{1,2})\.(\d{4})\s*(\d{1,2}):?(\d{2})?` at one start
position: day, month, year, hour, optional minutes. -/
def visDateMatchAt (l : List Char) : Option (Nat × Nat × Nat × Nat × Option Nat) := do
  let (d, l) ← digitsMax2 l
  let l ← charsLit ['.'] l
  let (mo, l) ← digitsMax2 l
  let l ← charsLit ['.'] l
  let (y, l) ← digitsExact4 l
  let l := l.dropWhile isJsSpace
  let (h, l) ← digitsMax2 l
  let l := match l with
    | ':' :: r => r
    | _ => l
  let (mi, _) := digits2Opt l
  pure (d, mo, y, h, mi)

/-- `parseDateString` (the VIS dotted-date parser): search the string
for the dotted pattern, build `new Date(year, month-1, day, hour,
minute)`; `null` when the pattern does not match or the date is
invalid.  The hour group of the source regex is not optional, so a
date with no time component does not match. -/
def parseDateString (s : String) : Option Int :=
  match searchAt visDateMatchAt s.data with
  | none => none
  | some (d, mo, y, h, mi) =>
    mkJsDate (Int.ofNat y) (Int.ofNat mo - 1) (Int.ofNat d) (Int.ofNat h)
      (Int.ofNat (mi.getD 0))

/-- The fixed English month-name table of the ESN date parser. -/
def esnMonthMap (w : String) : Option Int :=
  (([("January", 0), ("February", 1), ("March", 2), ("April", 3),
     ("May", 4), ("June", 5), ("July", 6), ("August", 7),
     ("September", 8), ("October", 9), ("November", 10), ("December", 11)] :
    List (String × Int)).lookup w)

/-- One dated endpoint of an ESN match: day, month name, year, hour,
minute. -/
structure EsnStamp where
  day : Nat
  monthName : String
  year : Nat
  hour : Nat
  minute : Nat
deriving Repr, DecidableEq

/-- `\w+\s+(\d+)\.\s+(\w+)\s+(\d{4})\s+(\d{1,2}):(\d{2})` — the leading
stamp shared by both ESN date shapes; returns the stamp and the rest. -/
def esnStampAt (l : List Char) : Option (EsnStamp × List Char) := do
  let (_, l) ← word1 l
  let l ← skipWs1 l
  let (ds, l) ← digits1 l
  let l ← charsLit ['.'] l
  let l ← skipWs1 l
  let (mon, l) ← word1 l
  let l ← skipWs1 l
  let (y, l) ← digitsExact4 l
  let l ← skipWs1 l
  let (h, l) ← digitsMax2 l
  let l ← charsLit [':'] l
  let (mi, l) ← digitsExact2 l
  pure (⟨natOfDigits ds, String.mk mon, y, h, mi⟩, l)

/-- `\s*-\s*`: the dash separator of the ESN shapes. -/
def esnDashAt (l : List Char) : Option (List Char) := do
  let l := l.dropWhile isJsSpace
  let l ← charsLit ['-'] l
  pure (l.dropWhile isJsSpace)

/-- The multi-day ESN shape: a full stamp, a dash, a second full stamp. -/
def esnMultiDayMatchAt (l : List Char) : Option (EsnStamp × EsnStamp) := do
  let (s1, l) ← esnStampAt l
  let l ← esnDashAt l
  let (s2, _) ← esnStampAt l
  pure (s1, s2)

/-- The single-day ESN shape: a full stamp, a dash, `(\d{1,2}):(\d{2})`. -/
def esnSingleDayMatchAt (l : List Char) : Option (EsnStamp × Nat × Nat) := do
  let (s1, l) ← esnStampAt l
  let l ← esnDashAt l
  let (h2, l) ← digitsMax2 l
  let l ← charsLit [':'] l
  let (mi2, _) ← digitsExact2 l
  pure (s1, h2, mi2)

/-- Unanchored search for the multi-day ESN shape. -/
def esnMultiDayMatch (s : String) : Option (EsnStamp × EsnStamp) :=
  searchAt esnMultiDayMatchAt s.data

/-- Unanchored search for the single-day ESN shape. -/
def esnSingleDayMatch (s : String) : Option (EsnStamp × Nat × Nat) :=
  searchAt esnSingleDayMatchAt s.data

/-- The pair of `Date` values an ESN parse produces; either may be the
invalid date when a month name fails to resolve. -/
structure EsnDates where
  startDate : Option Int
  endDate : Option Int
deriving Repr, DecidableEq

/-- The date an ESN stamp denotes (invalid when the month name is not in
the table). -/
def esnStampDate (st : EsnStamp) : Option Int :=
  mkJsDateOptMonth (Int.ofNat st.year) (esnMonthMap st.monthName)
    (Int.ofNat st.day) (Int.ofNat st.hour) (Int.ofNat st.minute)

/-- `parseEsnDateString` (the verbose-weekday parser): try the multi-day
shape, then the single-day shape; a month name outside the table gives
an invalid date inside the result rather than a `null` result. -/
def parseEsnDateString (s : String) : Option EsnDates :=
  match esnMultiDayMatch s with
  | some (s1, s2) => some ⟨esnStampDate s1, esnStampDate s2⟩
  | none =>
    match esnSingleDayMatch s with
    | some (s1, h2, mi2) =>
      some ⟨esnStampDate s1,
            mkJsDateOptMonth (Int.ofNat s1.year) (esnMonthMap s1.monthName)
              (Int.ofNat s1.day) (Int.ofNat h2) (Int.ofNat mi2)⟩
    | none => none

/-- The fixed abbreviated month table of the VMP date parser. -/
def vmpMonthMap (w : String) : Option Int :=
  (([("Jan", 0), ("Feb", 1), ("Mar", 2), ("Apr", 3), ("May", 4), ("Jun", 5),
     ("Jul", 6), ("Aug", 7), ("Sep", 8), ("Oct", 9), ("Nov", 10), ("Dec", 11)] :
    List (String × Int)).lookup w)

/-- The match data of the VMP date regex
`(\w+)\.\s+(\d+),\s+(\d{4}),\s+(\d+)(?::(\d+))?\s*(a\.m\.|p\.m\.|noon|midnight)?`
(case-insensitive): month abbreviation, day, year, hour, optional
minutes, optional period token. -/
structure VmpMatch where
  monthAbbr : String
  day : Nat
  year : Nat
  hour : Nat
  minute : Option Nat
  period : Option String
deriving Repr, DecidableEq

/-- The optional `(?::(\d+))?` group: a colon followed by at least one
digit, or nothing. -/
def optColonDigits (l : List Char) : (Option Nat × List Char) :=
  match l with
  | ':' :: r =>
    match digits1 r with
    | some (ds, rest) => (some (natOfDigits ds), rest)
    | none => (none, l)
  | _ => (none, l)

/-- The optional case-insensitive period alternation
`(a\.m\.|p\.m\.|noon|midnight)?`, alternatives tried in source order;
returns the matched text and the rest. -/
def optPeriod (alts : List String) (l : List Char) : (Option String × List Char) :=
  match alts with
  | [] => (none, l)
  | a :: rest =>
    match charsLitCI a.data l with
    | some r => (some (String.mk (l.take a.length)), r)
    | none => optPeriod rest l

/-- The VMP date shape at one start position. -/
def vmpDateMatchAt (l : List Char) : Option (VmpMatch × List Char) := do
  let (mon, l) ← word1 l
  let l ← charsLit ['.'] l
  let l ← skipWs1 l
  let (ds, l) ← digits1 l
  let l ← charsLit [','] l
  let l ← skipWs1 l
  let (y, l) ← digitsExact4 l
  let l ← charsLit [','] l
  let l ← skipWs1 l
  let (hs, l) ← digits1 l
  let (mi, l) := optColonDigits l
  let l := l.dropWhile isJsSpace
  let (per, l) := optPeriod ["a.m.", "p.m.", "noon", "midnight"] l
  pure (⟨String.mk mon, natOfDigits ds, y, natOfDigits hs, mi, per⟩, l)

/-- The duration shape `(\d+):(\d+):(\d+)` at one start position. -/
def durationMatchAt (l : List Char) : Option (Nat × Nat × Nat) := do
  let (h, l) ← digits1 l
  let l ← charsLit [':'] l
  let (m, l) ← digits1 l
  let l ← charsLit [':'] l
  let (s, _) ← digits1 l
  pure (natOfDigits h, natOfDigits m, natOfDigits s)

/-- `parseVmpDateString` (the abbreviated-month-with-duration parser):
match the date shape, resolve the month (exact, case-sensitive table
lookup), convert a `p.m.` or `a.m.` period to the 24-hour clock, and
derive the end date by adding the parsed `H:MM:SS` duration (a missing
duration string defaults to two hours; an unmatched one leaves the end
equal to the start). -/
def parseVmpDateString (dateStr durationStr : String) : Option (Option Int × Option Int) :=
  match searchAt vmpDateMatchAt dateStr.data with
  | none => none
  | some (m, _) =>
    match vmpMonthMap m.monthAbbr with
    | none => none
    | some month =>
      let hour0 : Int := Int.ofNat m.hour
      let lowPer := (m.period.getD "").data.map jsToLowerChar
      let isPm := m.period.isSome && charsHasRun "p.m.".data lowPer
      let isAm := m.period.isSome && charsHasRun "a.m.".data lowPer
      let hour : Int :=
        if isPm && hour0 != 12 then hour0 + 12
        else if isAm && hour0 == 12 then 0
        else hour0
      let startDate := mkJsDate (Int.ofNat m.year) month (Int.ofNat m.day) hour
        (Int.ofNat (m.minute.getD 0))
      let endDate :=
        if durationStr.data.isEmpty then
          startDate.bind (fun ms => jsDateFromMs (ms + 2 * 60 * 60 * 1000))
        else
          match searchAt durationMatchAt durationStr.data with
          | some (dh, dm, dsec) =>
            startDate.bind (fun ms => jsDateFromMs
              (ms + Int.ofNat dh * 3600000 + Int.ofNat dm * 60000 + Int.ofNat dsec * 1000))
          | none => startDate
      some (startDate, endDate)

/-- The `content` block of a canonical event. -/
structure EventContent where
  title : Option String
  description : Option String
  linkUrl : Option String
  linkBody : Option String
deriving Repr, DecidableEq

/-- The `location.internal` block. -/
structure EventLocation where
  areaDesc : String
  building : String
  room : String
  addition : String
deriving Repr, DecidableEq

/-- One `in-progress-timerange-array` entry; the ISO strings the code
stores are modelled by the instants they denote. -/
structure TimeRange where
  dateTimeFrom : Int
  dateTimeTo : Int
deriving Repr, DecidableEq

/-- An `opening-hours` wide range. -/
structure OpeningHoursRange where
  dateFrom : Int
  dateTo : Int
deriving Repr, DecidableEq

/-- The `date-time-indication` block: an optional timerange array and an
optional opening-hours range. -/
structure DateTimeIndication where
  timerangeArray : Option (List TimeRange)
  openingHours : Option OpeningHoursRange
deriving Repr, DecidableEq

/-- One `organizers.ou-array` entry. -/
structure Organizer where
  name : String
  nameShort : String
deriving Repr, DecidableEq

/-- The `classification` block. -/
structure Classification where
  entryTypeDesc : String
  targetGroupDesc : Option String
deriving Repr, DecidableEq

/-- The UZH-specific extension bag; the fields of the raw payload are
JSON values modelled as optional strings. -/
structure UzhExtra where
  speaker : Option String
  contact_name : Option String
  contact_mail : Option String
  is_virtual : Option String
  virtual_url : Option String
  virtual_location : Option String
  start_date : Option String
  top : Option String
  note : Option String
deriving Repr, DecidableEq

/-- The VIS-specific extension bag. -/
structure VisExtra where
  category : String
  price : Int
  isFree : Bool
  registration_info : String
deriving Repr, DecidableEq

/-- The ESN-specific extension bag; a price is absent (never assigned),
`NaN`, or a number. -/
structure EsnExtra where
  price_with_card : Option JsNum
  price_without_card : Option JsNum
  isFree : Bool
  location : String
deriving Repr, DecidableEq

/-- The VMP-specific extension bag. -/
structure VmpExtra where
  slug : String
  duration : String
deriving Repr, DecidableEq

/-- A canonical event record.  The ETH adapter passes raw payload
entries through unmodified, so every common field may be absent; the
source-specific bags mirror the `uzh`, `vis`, `esn` and `vmp` objects
the other adapters attach. -/
structure Event where
  id : Option String
  source : String
  content : EventContent
  location : Option EventLocation
  dateTimeIndication : Option DateTimeIndication
  organizers : Option (List Organizer)
  classification : Option Classification
  uzh : Option UzhExtra
  vis : Option VisExtra
  esn : Option EsnExtra
  vmp : Option VmpExtra
deriving Repr, DecidableEq

/-- The ETH payload: the optional `entry-array` of raw entries.  A raw
entry is an arbitrary JSON object; the fields the pipeline can later
read are the ones modelled by `Event`, so a raw entry is modelled as an
`Event` value with arbitrary field contents. -/
structure EthPayload where
  entryArray : Option (List Event)
deriving Repr, DecidableEq

/-- `fetchEthEvents`: spread each raw entry and override its `source`
with `ETH`; no other validation or mapping is performed.  A failed
fetch or JSON parse (`Except.error`) yields the empty list. -/
def fetchEthEvents (input : Except Unit EthPayload) : List Event :=
  match input with
  | .error _ => []
  | .ok data =>
    (data.entryArray.getD []).map (fun event => { event with source := "ETH" })

/-- A raw UZH payload entry (flat JSON fields, all possibly absent). -/
structure UzhRaw where
  id : Option String
  dtstart : Option String
  dtend : Option String
  title : Option String
  description : Option String
  more : Option String
  address : Option String
  bldg : Option String
  building : Option String
  room : Option String
  room_nr : Option String
  speaker : Option String
  contact_name : Option String
  contact_mail : Option String
  is_virtual : Option String
  virtual_url : Option String
  virtual_location : Option String
  start_date : Option String
  top : Option String
  note : Option String
deriving Repr, DecidableEq

/-- Convert one raw UZH entry: require truthy `id`, `dtstart`, `dtend`
and `title`; parse both epoch-millisecond strings with `parseInt` and
require both resulting dates valid; then build the canonical record.
`none` models the per-record skip. -/
def uzhConvert (u : UzhRaw) : Option Event := do
  if !(jsTruthyOpt u.id) || !(jsTruthyOpt u.dtstart) ||
     !(jsTruthyOpt u.dtend) || !(jsTruthyOpt u.title) then none
  else
    let startTimestamp ← jsParseInt (u.dtstart.getD "")
    let endTimestamp ← jsParseInt (u.dtend.getD "")
    let startDate ← jsDateFromMs startTimestamp
    let endDate ← jsDateFromMs endTimestamp
    pure {
      id := u.id
      source := "UZH"
      content := {
        title := u.title
        description := some (u.description.getD "")
        linkUrl := if jsTruthyOpt u.more then u.more else none
        linkBody := some "More Information" }
      location := some {
        areaDesc := u.address.getD ""
        building := if jsTruthyOpt u.bldg then u.bldg.getD "" else u.building.getD ""
        room := u.room.getD ""
        addition := if jsTruthyOpt u.room_nr then "Room " ++ u.room_nr.getD "" else "" }
      dateTimeIndication := some {
        timerangeArray := some [{ dateTimeFrom := startDate, dateTimeTo := endDate }]
        openingHours := none }
      organizers := some [{ name := "University of Zurich", nameShort := "UZH" }]
      classification := some {
        entryTypeDesc := "UZH Event"
        targetGroupDesc := if jsTruthyOpt u.speaker then some "Speaker Event" else none }
      uzh := some {
        speaker := u.speaker
        contact_name := u.contact_name
        contact_mail := u.contact_mail
        is_virtual := u.is_virtual
        virtual_url := u.virtual_url
        virtual_location := u.virtual_location
        start_date := u.start_date
        top := u.top
        note := u.note }
      vis := none, esn := none, vmp := none }

/-- `fetchUzhEvents`: reject a payload without an `events` array, map
every entry through `uzhConvert` dropping failures, then filter out
virtual events (`is_virtual` truthy and not the empty string).  The
converted events always carry a `uzh` bag; the impossible bagless case
keeps the event, matching the JS property access never faulting there. -/
def fetchUzhEvents (input : Except Unit (Option (List UzhRaw))) : List Event :=
  match input with
  | .error _ => []
  | .ok none => []
  | .ok (some raws) =>
    ((raws.filterMap uzhConvert).filter (fun event =>
      match event.uzh with
      | some ex => !(jsTruthyOpt ex.is_virtual) || ex.is_virtual == some ""
      | none => true))

/-- An anchor element of a listing page: its `href` attribute and the
text content of the event card it encloses (for the VIS page the card
container `closest(a)` is the anchor itself). -/
structure Anchor where
  href : String
  textContent : String
deriving Repr, DecidableEq

/-- The id capture of the VIS href pattern `\/en\/events\/(\d+)\//` at
one start position. -/
def visHrefMatchAt (l : List Char) : Option String := do
  let l ← charsLit "/en/events/".data l
  let (ds, l) ← digits1 l
  let _ ← charsLit ['/'] l
  pure (String.mk ds)

/-- The numeric event id embedded in a VIS href, when present. -/
def visHrefId (href : String) : Option String := searchAt visHrefMatchAt href.data

/-- The scan state of the line-by-line VIS card scanner. -/
structure VisState where
  title : String
  startTime : Option Int
  endTime : Option Int
  category : String
  registrationInfo : String
  isFree : Bool
deriving Repr, DecidableEq

/-- One step of the VIS scanner on the current line with the following
line as lookahead, in the source order of the conditions: title pick,
start-time label, end-time label, registration label, price check,
category labels. -/
def visStep (line : String) (next : Option String) (st : VisState) : VisState :=
  let st :=
    if st.title.data.isEmpty && decide (5 < line.length) &&
       !(jsIncludes line "Event start time") && !(jsIncludes line "Event end time") then
      { st with title := line }
    else st
  let st :=
    if jsIncludes line "Event start time" then
      match next with
      | some dateStr => { st with startTime := parseDateString dateStr }
      | none => st
    else st
  let st :=
    if jsIncludes line "Event end time" then
      match next with
      | some dateStr => { st with endTime := parseDateString dateStr }
      | none => st
    else st
  let st :=
    if jsIncludes line "Registration:" || jsIncludes line "registration" then
      { st with registrationInfo := line }
    else st
  let st :=
    if jsIncludes (jsToLower line) "chf" || jsIncludes (jsToLower line) "price" ||
       jsIncludes (jsToLower line) "fr." then
      match searchAt (fun l => (digits1 l).map (fun p => natOfDigits p.1)) line.data with
      | some n => if 0 < n then { st with isFree := false } else st
      | none => st
    else st
  let st :=
    if jsIncludes line "Calm & Culture Events" || jsIncludes line "Tech Talk" ||
       jsIncludes line "Workshops" || jsIncludes line "Party Events" then
      { st with category := line }
    else st
  st

/-- Run the VIS scanner over all lines, each with its successor as
lookahead. -/
def visScan : List String → VisState → VisState
  | [], st => st
  | line :: rest, st => visScan rest (visStep line rest.head? st)

/-- Process one VIS event card: split the text content into trimmed
non-empty lines, scan them, then require a title, both parsed times and
a free price before building the canonical record. -/
def visProcessCard (eventId : String) (a : Anchor) : Option Event :=
  let textContent := a.textContent
  let lines := ((textContent.split (fun c => c == '\n')).map jsTrim).filter
    (fun l => !l.data.isEmpty)
  let st := visScan lines ⟨"", none, none, "", "", true⟩
  match st.startTime, st.endTime with
  | some startTime, some endTime =>
    if st.title.data.isEmpty then none
    else if !st.isFree then none
    else some {
      id := some eventId
      source := "VIS"
      content := {
        title := some st.title
        description := some (jsTrim (String.mk (textContent.data.take 300)))
        linkUrl := some ("https://vis.ethz.ch" ++ a.href)
        linkBody := some "More Information" }
      location := some { areaDesc := "", building := "", room := "", addition := "" }
      dateTimeIndication := some {
        timerangeArray := some [{ dateTimeFrom := startTime, dateTimeTo := endTime }]
        openingHours := none }
      organizers := some [{
        name := "VIS - Association of Computer Science Students at ETH"
        nameShort := "VIS" }]
      classification := some {
        entryTypeDesc := if st.category.data.isEmpty then "VIS Event" else st.category
        targetGroupDesc := none }
      uzh := none
      vis := some {
        category := st.category
        price := 0
        isFree := true
        registration_info := st.registrationInfo }
      esn := none, vmp := none }
  | _, _ => none

/-- Walk the VIS anchors in order, de-duplicating by extracted id; an id
is marked seen as soon as its first anchor matches, even when that
anchor then fails to produce an event. -/
def visCollect : List Anchor → List String → List Event
  | [], _ => []
  | a :: rest, seen =>
    match visHrefId a.href with
    | none => visCollect rest seen
    | some eventId =>
      if seen.contains eventId then visCollect rest seen
      else
        match visProcessCard eventId a with
        | none => visCollect rest (eventId :: seen)
        | some e => e :: visCollect rest (eventId :: seen)

/-- `fetchVisEvents`: a failed fetch yields the empty list, otherwise
the de-duplicating scan over all matching anchors of the listing page. -/
def fetchVisEvents (input : Except Unit (List Anchor)) : List Event :=
  match input with
  | .error _ => []
  | .ok anchors => visCollect anchors []

/-- The id capture of the ESN href pattern `event\/(\d+)` at one start
position. -/
def esnHrefMatchAt (l : List Char) : Option String := do
  let l ← charsLit "event/".data l
  let (ds, _) ← digits1 l
  pure (String.mk ds)

/-- The numeric event id embedded in an ESN href, when present. -/
def esnHrefId (href : String) : Option String := searchAt esnHrefMatchAt href.data

/-- An ESN detail page as the adapter queries it: the table rows (each a
list of cell texts, tables concatenated in document order) and the text
of the first `h1`/`h2` heading, when any. -/
structure EsnDetailPage where
  tables : List (List (List String))
  heading : Option String
deriving Repr, DecidableEq

/-- The price capture of `without ESNcard:\s*CHF\s*([\d.]+)` (or the
`with` variant) at one start position, fed through `parseFloat`. -/
def esnPriceMatchAt (tag : String) (l : List Char) : Option JsNum := do
  let l ← charsLit tag.data l
  let l := l.dropWhile isJsSpace
  let l ← charsLit "CHF".data l
  let l := l.dropWhile isJsSpace
  let (cs, _) ← (match l.span (fun c => c.isDigit || c == '.') with
    | ([], _) => none
    | (cs, r) => some (cs, r))
  pure (jsParseFloat (String.mk cs))

/-- Search a fee-row value for the `without ESNcard` price. -/
def esnPriceWithout (value : String) : Option JsNum :=
  searchAt (esnPriceMatchAt "without ESNcard:") value.data

/-- Search a fee-row value for the `with ESNcard` price. -/
def esnPriceWith (value : String) : Option JsNum :=
  searchAt (esnPriceMatchAt "with ESNcard:") value.data

/-- The scan state of the ESN detail-row scanner. -/
structure EsnScanState where
  title : String
  description : String
  dateStr : String
  location : String
  priceWithCard : Option JsNum
  priceWithoutCard : Option JsNum
  isFree : Bool
deriving Repr, DecidableEq

/-- A JS strict comparison of a price cell against zero or `null`:
true for an unassigned price or an exact parsed zero, false for `NaN`
or a non-zero number. -/
def priceZeroOrNull : Option JsNum → Bool
  | none => true
  | some (some q) => q == { num := 0, den := 1 }
  | some none => false

/-- One ESN table row.  Two or more cells: a label/value pair handling
the `When`, `Meeting place` and entrance-fee rows (a fee row updates
whichever prices match and recomputes `isFree` from the updated pair).
Exactly one cell: a candidate title (first short single cell) or
description (first long single cell). -/
def esnRowStep (st : EsnScanState) (cells : List String) : EsnScanState :=
  match cells with
  | c0 :: c1 :: _ =>
    let label := jsTrim c0
    let value := jsTrim c1
    if label == "When" then { st with dateStr := value }
    else if label == "Meeting place" then { st with location := value }
    else if jsIncludes label "Entrance" || jsIncludes label "Fee" then
      let priceWithoutCard :=
        match esnPriceWithout value with
        | some q => some q
        | none => st.priceWithoutCard
      let priceWithCard :=
        match esnPriceWith value with
        | some q => some q
        | none => st.priceWithCard
      { st with
        priceWithoutCard := priceWithoutCard
        priceWithCard := priceWithCard
        isFree := priceZeroOrNull priceWithCard && priceZeroOrNull priceWithoutCard }
    else st
  | [c0] =>
    let content := jsTrim c0
    let st :=
      if st.title.data.isEmpty && decide (5 < content.length) && decide (content.length < 100) &&
         !(jsIncludes content "When") && !(jsIncludes content "Meeting") then
        { st with title := content }
      else st
    if decide (100 < content.length) && st.description.data.isEmpty then
      { st with description := content }
    else st
  | _ => st

/-- The title fallback of the ESN detail scan: when no table cell
qualified, the first heading text (trimmed) is used. -/
def esnResolveTitle (st : EsnScanState) (heading : Option String) : String :=
  if st.title.data.isEmpty then
    match heading with
    | some h => jsTrim h
    | none => st.title
  else st.title

/-- Process one ESN detail page: scan all rows, fall back to the heading
for the title, parse the `When` value, then require a title and a free
price.  A record whose parse produced an invalid date reaches
`toISOString`, which throws and is caught by the per-item handler, so
the item is skipped (`none`). -/
def esnProcessDetail (eventId : String) (page : EsnDetailPage) : Option Event :=
  let st := (page.tables.flatten).foldl esnRowStep ⟨"", "", "", "", none, none, false⟩
  let title := esnResolveTitle st page.heading
  match parseEsnDateString st.dateStr with
  | none => none
  | some dates =>
    if title.data.isEmpty then none
    else if !st.isFree then none
    else
      match dates.startDate, dates.endDate with
      | some startMs, some endMs => some {
          id := some eventId
          source := "ESN"
          content := {
            title := some title
            description := some (jsTrim (String.mk (st.description.data.take 300)))
            linkUrl := some ("https://zurich.esn.ch/event/" ++ eventId)
            linkBody := some "More Information" }
          location := some { areaDesc := st.location, building := "", room := "", addition := "" }
          dateTimeIndication := some {
            timerangeArray := some [{ dateTimeFrom := startMs, dateTimeTo := endMs }]
            openingHours := none }
          organizers := some [{ name := "ESN Zurich - Erasmus Student Network", nameShort := "ESN" }]
          classification := some {
            entryTypeDesc := "ESN Event"
            targetGroupDesc := some "Exchange Students" }
          uzh := none, vis := none
          esn := some {
            price_with_card := st.priceWithCard
            price_without_card := st.priceWithoutCard
            isFree := st.isFree
            location := st.location }
          vmp := none }
      | _, _ => none

/-- The ESN payload: the listing-page anchor hrefs, and the detail page
fetched for each event id (an id with no entry or a `none` entry models
a failed detail fetch, which the loop skips). -/
structure EsnPayload where
  hrefs : List String
  details : List (String × Option EsnDetailPage)

/-- Look up the detail page fetched for one id. -/
def lookupEsnDetail (details : List (String × Option EsnDetailPage)) (id : String) :
    Option EsnDetailPage :=
  match details.lookup id with
  | some (some page) => some page
  | _ => none

/-- Phase 1 of the ESN adapter: collect the distinct numeric ids of the
listing anchors, in first-seen order. -/
def esnCollectIds : List String → List String → List String
  | [], _ => []
  | h :: rest, seen =>
    match esnHrefId h with
    | some id =>
      if seen.contains id then esnCollectIds rest seen
      else id :: esnCollectIds rest (id :: seen)
    | none => esnCollectIds rest seen

/-- `fetchEsnEvents`: a failed listing fetch yields the empty list;
otherwise one sequential detail fetch and extraction per collected id,
skipping per-item failures. -/
def fetchEsnEvents (input : Except Unit EsnPayload) : List Event :=
  match input with
  | .error _ => []
  | .ok p =>
    (esnCollectIds p.hrefs []).filterMap (fun eventId =>
      match lookupEsnDetail p.details eventId with
      | none => none
      | some page => esnProcessDetail eventId page)

/-- The slug capture of the VMP href pattern `\/en\/events\/([^/]+)\/?$`
at one start position: the last path segment, anchored at the end of
the href with an optional trailing slash. -/
def vmpSlugMatchAt (l : List Char) : Option String := do
  let l ← charsLit "/en/events/".data l
  let (seg, l) ← (match l.span (fun c => !(c == '/')) with
    | ([], _) => none
    | (seg, r) => some (seg, r))
  match l with
  | [] => pure (String.mk seg)
  | ['/'] => pure (String.mk seg)
  | _ => none

/-- The slug embedded in a VMP href, when the end-anchored pattern
matches. -/
def vmpSlugId (href : String) : Option String := searchAt vmpSlugMatchAt href.data

/-- A VMP detail page as the adapter queries it: the first `h1` text,
the paragraph texts, and the whole body text. -/
structure VmpDetailPage where
  h1 : Option String
  paragraphs : List String
  bodyText : String
deriving Repr, DecidableEq

/-- The date substring found in a VMP body text by the search pattern
`(\w+\.\s+\d+,\s+\d{4},\s+\d+(?::\d+)?\s*(?:a\.m\.|p\.m\.|noon)?)`:
the matched text itself becomes the date string. -/
def vmpFindDate (body : String) : Option String :=
  let rec go : List Char → Option String
    | [] => none
    | l@(_ :: rest) =>
      match (do
        let (mon, l1) ← word1 l
        let l1 ← charsLit ['.'] l1
        let l1 ← skipWs1 l1
        let (_, l1) ← digits1 l1
        let l1 ← charsLit [','] l1
        let l1 ← skipWs1 l1
        let (_, l1) ← digitsExact4 l1
        let l1 ← charsLit [','] l1
        let l1 ← skipWs1 l1
        let (_, l1) ← digits1 l1
        let (_, l1) := optColonDigits l1
        let l1 := l1.dropWhile isJsSpace
        let (_, l1) := optPeriod ["a.m.", "p.m.", "noon"] l1
        let _ := mon
        pure l1 : Option (List Char)) with
      | some r => some (String.mk (l.take (l.length - r.length)))
      | none => go rest
  go body.data

/-- The duration substring found in a VMP body text by
`Duration:\s*(\d+:\d+:\d+)` (the first capture group). -/
def vmpFindDuration (body : String) : Option String :=
  searchAt (fun l => do
    let l ← charsLit "Duration:".data l
    let l := l.dropWhile isJsSpace
    let (h, l) ← digits1 l
    let l ← charsLit [':'] l
    let (m, l) ← digits1 l
    let l ← charsLit [':'] l
    let (s, _) ← digits1 l
    pure (String.mk (h ++ ':' :: m ++ ':' :: s))) body.data

/-- The VMP title: the first `h1` text, trimmed; empty when absent. -/
def vmpResolveTitle (h1 : Option String) : String :=
  match h1 with
  | some h => jsTrim h
  | none => ""

/-- Process one VMP detail page: title from the `h1`, description from
the filtered paragraphs, date and duration strings from the body text,
then require parsed dates and a title.  A record whose parse produced
an invalid date reaches `toISOString`, which throws and is caught by
the per-item handler, so the item is skipped (`none`). -/
def vmpProcessItem (slug : String) (page : VmpDetailPage) : Option Event :=
  let title := vmpResolveTitle page.h1
  let descParts := (page.paragraphs.map jsTrim).filter (fun text =>
    !text.data.isEmpty && !(jsIncludes text "Please login") && !(jsIncludes text "Duration:") &&
    !(jsIncludes (jsToLower text) "dec.") && !(jsIncludes (jsToLower text) "jan.") &&
    !(jsIncludes (jsToLower text) "feb.") && decide (20 < text.length))
  let description := String.intercalate " " descParts
  let dateStr := (vmpFindDate page.bodyText).getD ""
  let durationStr := (vmpFindDuration page.bodyText).getD ""
  match parseVmpDateString dateStr durationStr with
  | none => none
  | some (sd, ed) =>
    if title.data.isEmpty then none
    else
      match sd, ed with
      | some startMs, some endMs => some {
          id := some slug
          source := "VMP"
          content := {
            title := some title
            description := some (jsTrim (String.mk (description.data.take 300)))
            linkUrl := some ("https://vmp.ethz.ch/en/events/" ++ slug ++ "/")
            linkBody := some "More Information" }
          location := some { areaDesc := "", building := "", room := "", addition := "" }
          dateTimeIndication := some {
            timerangeArray := some [{ dateTimeFrom := startMs, dateTimeTo := endMs }]
            openingHours := none }
          organizers := some [{ name := "VMP - Physics Association at ETH", nameShort := "VMP" }]
          classification := some {
            entryTypeDesc := "VMP Event"
            targetGroupDesc := some "Physics Students" }
          uzh := none, vis := none, esn := none
          vmp := some { slug := slug, duration := durationStr } }
      | _, _ => none

/-- The VMP payload: the listing-page anchor hrefs and the detail page
fetched for each slug. -/
structure VmpPayload where
  hrefs : List String
  details : List (String × Option VmpDetailPage)

/-- Look up the detail page fetched for one slug. -/
def lookupVmpDetail (details : List (String × Option VmpDetailPage)) (slug : String) :
    Option VmpDetailPage :=
  match details.lookup slug with
  | some (some page) => some page
  | _ => none

/-- Phase 1 of the VMP adapter: collect the distinct slugs of the
listing anchors, in first-seen order, excluding the three non-event
slugs. -/
def vmpCollectSlugs : List String → List String → List String
  | [], _ => []
  | h :: rest, seen =>
    match vmpSlugId h with
    | some s =>
      if s == "alle_events" || s == "meine_events" || s == "helper-recruitment" ||
         seen.contains s then
        vmpCollectSlugs rest seen
      else s :: vmpCollectSlugs rest (s :: seen)
    | none => vmpCollectSlugs rest seen

/-- `fetchVmpEvents`: a failed listing fetch yields the empty list;
otherwise one sequential detail fetch and extraction per collected
slug, skipping per-item failures. -/
def fetchVmpEvents (input : Except Unit VmpPayload) : List Event :=
  match input with
  | .error _ => []
  | .ok p =>
    (vmpCollectSlugs p.hrefs []).filterMap (fun slug =>
      match lookupVmpDetail p.details slug with
      | none => none
      | some page => vmpProcessItem slug page)

/-- `fetchEvents` — the aggregator: the five adapter pipelines each
resolve (never reject), and the result is their concatenation in the
fixed order ETH, UZH, VIS, ESN, VMP. -/
def fetchEvents (i1 : Except Unit EthPayload) (i2 : Except Unit (Option (List UzhRaw)))
    (i3 : Except Unit (List Anchor)) (i4 : Except Unit EsnPayload)
    (i5 : Except Unit VmpPayload) : List Event :=
  fetchEthEvents i1 ++ fetchUzhEvents i2 ++ fetchVisEvents i3 ++
    fetchEsnEvents i4 ++ fetchVmpEvents i5

/-- `filterEventsNext2Weeks` at an explicit evaluation instant `now`:
the horizon is fourteen days forward (the calendar-day addition
`setDate(getDate() + 14)` is modelled as fourteen whole days of
milliseconds).  An event with a timerange array (even an empty one) is
kept exactly when some window start lies inside the closed window; an
event with only an opening-hours range is kept exactly when that range
overlaps the window; everything else is dropped. -/
def filterEventsNext2Weeks (now : Int) (events : List Event) : List Event :=
  let twoWeeksFromNow := now + 14 * 86400000
  events.filter (fun event =>
    match event.dateTimeIndication with
    | none => false
    | some dateTimeIndicator =>
      match dateTimeIndicator.timerangeArray with
      | some trs => trs.any (fun timeRange =>
          decide (now ≤ timeRange.dateTimeFrom) &&
          decide (timeRange.dateTimeFrom ≤ twoWeeksFromNow))
      | none =>
        match dateTimeIndicator.openingHours with
        | some oh =>
          decide (oh.dateFrom ≤ twoWeeksFromNow) && decide (now ≤ oh.dateTo)
        | none => false)

/-- The French block of the food lexicon. -/
def foodKeywordsFrench : List String :=
  ["apéritif", "apéro", "collation", "buffet", "cocktail", "dégustation",
   "repas", "dîner", "déjeuner", "petit-déjeuner", "café",
   "vin d" ++ String.singleton (Char.ofNat 39) ++ "honneur", "réception", "pause-café"]

/-- The German block of the food lexicon. -/
def foodKeywordsGerman : List String :=
  ["apéro", "aperitif", "imbiss", "buffet", "cocktail", "verkostung",
   "abendessen", "mittagessen", "frühstück", "kaffee",
   "empfang", "kaffeepause", "erfrischungen", "verpflegung",
   "fingerfood", "snacks", "getränke"]

/-- The English block of the food lexicon. -/
def foodKeywordsEnglish : List String :=
  ["aperitif", "apéro", "refreshments", "buffet", "cocktail", "tasting",
   "food", "dinner", "lunch", "breakfast", "coffee",
   "reception", "coffee break", "snacks", "catering",
   "finger food", "drinks", "beverages", "networking lunch",
   "wine reception", "light refreshments"]

/-- The (empty) common block of the food lexicon. -/
def foodKeywordsCommon : List String := []

/-- The flattened lexicon, in the enumeration order of the source
object: French, German, English, common. -/
def allFoodKeywords : List String :=
  foodKeywordsFrench ++ foodKeywordsGerman ++ foodKeywordsEnglish ++ foodKeywordsCommon

/-- The lowered `title description` text both the food predicate and
the keyword finder scan. -/
def eventFoodText (event : Event) : String :=
  (match event.content.title with
   | some t => jsToLower t
   | none => "") ++ " " ++
  (match event.content.description with
   | some d => jsToLower d
   | none => "")

/-- `filterEventsWithFood`: VIS, ESN and VMP events are always kept;
any other event is kept when its lowered title and description contain
some lowered lexicon keyword. -/
def filterEventsWithFood (events : List Event) : List Event :=
  events.filter (fun event =>
    if event.source == "VIS" || event.source == "ESN" || event.source == "VMP" then true
    else allFoodKeywords.any (fun keyword =>
      jsIncludes (eventFoodText event) (jsToLower keyword)))

/-- `eventHasFood`: whether some lexicon keyword occurs in the lowered
title and description. -/
def eventHasFood (event : Event) : Bool :=
  allFoodKeywords.any (fun keyword =>
    jsIncludes (eventFoodText event) (jsToLower keyword))

/-- `getFoodKeyword`: the first lexicon keyword occurring in the lowered
title and description, in lexicon order, else `null`. -/
def getFoodKeyword (event : Event) : Option String :=
  allFoodKeywords.find? (fun keyword =>
    jsIncludes (eventFoodText event) (jsToLower keyword))

/-- Whether a slug character survives the removal class
`[^a-z0-9\s-]`. -/
def isSlugKeep (c : Char) : Bool :=
  (decide ('a' ≤ c) && decide (c ≤ 'z')) || (decide ('0' ≤ c) && decide (c ≤ '9')) ||
  isJsSpace c || c == '-'

/-- The accent-folding replacements of the slug builder, applied after
lowering. -/
def foldAccentChar (c : Char) : Char :=
  if c == 'à' || c == 'á' || c == 'â' || c == 'ã' || c == 'ä' || c == 'å' then 'a'
  else if c == 'è' || c == 'é' || c == 'ê' || c == 'ë' then 'e'
  else if c == 'ì' || c == 'í' || c == 'î' || c == 'ï' then 'i'
  else if c == 'ò' || c == 'ó' || c == 'ô' || c == 'õ' || c == 'ö' then 'o'
  else if c == 'ù' || c == 'ú' || c == 'û' || c == 'ü' then 'u'
  else if c == 'ý' || c == 'ÿ' then 'y'
  else if c == 'ñ' then 'n'
  else if c == 'ç' then 'c'
  else c

/-- `replace(\s+, -)`: each maximal whitespace run becomes one hyphen. -/
def squashSpaces : List Char → List Char
  | [] => []
  | c :: rest =>
    if isJsSpace c then '-' :: squashSpaces (rest.dropWhile isJsSpace)
    else c :: squashSpaces rest
termination_by l => l.length
decreasing_by
  all_goals simp only [List.length_cons]
  · exact Nat.lt_succ_of_le (by
      induction rest with
      | nil => simp [List.dropWhile]
      | cons x xs ih =>
        by_cases hx : isJsSpace x
        · simp only [List.dropWhile, hx]
          exact Nat.le_trans ih (Nat.le_succ _)
        · simp [List.dropWhile, hx])
  · omega

/-- `replace(-+, -)`: each maximal hyphen run becomes one hyphen. -/
def squashHyphens : List Char → List Char
  | [] => []
  | c :: rest =>
    if c == '-' then '-' :: squashHyphens (rest.dropWhile (fun x => x == '-'))
    else c :: squashHyphens rest
termination_by l => l.length
decreasing_by
  all_goals simp only [List.length_cons]
  · exact Nat.lt_succ_of_le (by
      induction rest with
      | nil => simp [List.dropWhile]
      | cons x xs ih =>
        by_cases hx : (x == '-') = true
        · simp only [List.dropWhile, hx]
          exact Nat.le_trans ih (Nat.le_succ _)
        · simp [List.dropWhile, hx])
  · omega

/-- Drop a single leading hyphen when present. -/
def dropLeadHyphen : List Char → List Char
  | '-' :: rest => rest
  | l => l

/-- `replace(^-|-$, )` with the global flag: one leading and one
trailing hyphen are removed when present (after squashing, at most one
of each can exist; removing the trailing one first equals the single
regex pass on every input, including the singleton hyphen). -/
def trimEdgeHyphens (l : List Char) : List Char :=
  dropLeadHyphen ((dropLeadHyphen l.reverse).reverse)

/-- The ETH title slug: lower, fold accents, drop everything outside
`[a-z0-9\s-]`, turn whitespace runs into hyphens, squash hyphen runs,
trim one hyphen from each edge. -/
def ethTitleSlug (title : String) : String :=
  String.mk (trimEdgeHyphens (squashHyphens (squashSpaces
    (((title.data.map jsToLowerChar).map foldAccentChar).filter isSlugKeep))))

/-- `getOfficialEventUrl`: `null` without a truthy id and title,
otherwise the per-source official page URL; non-UZH/VIS/ESN/VMP sources
get the ETH details URL embedding the title slug. -/
def getOfficialEventUrl (event : Event) : Option String :=
  if !(jsTruthyOpt event.id) || !(jsTruthyOpt event.content.title) then none
  else
    let id := event.id.getD ""
    let title := event.content.title.getD ""
    if event.source == "UZH" then
      some ("https://www.agenda.uzh.ch/en/events/" ++ id)
    else if event.source == "VIS" then
      some ("https://vis.ethz.ch/en/events/" ++ id ++ "/")
    else if event.source == "ESN" then
      some ("https://zurich.esn.ch/event/" ++ id)
    else if event.source == "VMP" then
      some ("https://vmp.ethz.ch/en/events/" ++ id ++ "/")
    else
      some ("https://ethz.ch/en/news-and-events/events/details." ++ ethTitleSlug title ++
        "." ++ id ++ ".html")

/-- Modelled from the spec and the platform contract: the registration
store persists one value under a fixed key; `localStorage.getItem` gives
`null` (absent) or a string, and `JSON.parse` of a stored string either
fails (corrupt) or yields the list it encodes.  The stored value is
therefore absent, malformed, or a list of ids; a write of
`JSON.stringify(list)` stores that list. -/
inductive StoredRegistrations where
  | absent
  | malformed
  | stored (l : List String)
deriving Repr, DecidableEq

/-- `JSON.parse(getItem(key) or [])`: an absent value parses as the
empty list, a malformed one throws (`none`), a stored list is itself. -/
def readRegistrations : StoredRegistrations → Option (List String)
  | .absent => some []
  | .malformed => none
  | .stored l => some l

/-- `isUserRegistered`: membership in the parsed list; the catch arm
returns `false`. -/
def isUserRegistered (store : StoredRegistrations) (eventId : String) : Bool :=
  match readRegistrations store with
  | some registrations => registrations.contains eventId
  | none => false

/-- `toggleUserRegistration`: remove a present id (returning `false`)
or append an absent one (returning `true`); the catch arm returns
`false` and writes nothing. -/
def toggleUserRegistration (store : StoredRegistrations) (eventId : String) :
    Bool × StoredRegistrations :=
  match readRegistrations store with
  | none => (false, store)
  | some registrations =>
    if registrations.contains eventId then
      (false, .stored (registrations.filter (fun id => !(id == eventId))))
    else
      (true, .stored (registrations ++ [eventId]))

/-- `getUserRegistrations`: the parsed list; the catch arm returns the
empty list. -/
def getUserRegistrations (store : StoredRegistrations) : List String :=
  match readRegistrations store with
  | some registrations => registrations
  | none => []

/-- An event with one concrete time window (used to exercise the time
filter). -/
def trEvent (f t : Int) : Event :=
  { id := some "e", source := "ETH"
    content := { title := some "Test", description := some "", linkUrl := none, linkBody := none }
    location := none
    dateTimeIndication := some { timerangeArray := some [{ dateTimeFrom := f, dateTimeTo := t }],
                                 openingHours := none }
    organizers := none, classification := none
    uzh := none, vis := none, esn := none, vmp := none }

/-- An event carrying a timerange array with zero windows. -/
def emptyWindowsEvent : Event :=
  { trEvent 0 0 with
    dateTimeIndication := some { timerangeArray := some [], openingHours := none } }

/-- An event with no date-time indication at all. -/
def noDtiEvent : Event :=
  { trEvent 0 0 with dateTimeIndication := none }

/-- An event carrying only an opening-hours wide range. -/
def openingEvent (f t : Int) : Event :=
  { trEvent 0 0 with
    dateTimeIndication := some { timerangeArray := none,
                                 openingHours := some { dateFrom := f, dateTo := t } } }

/-- A raw ETH payload entry with every field absent or empty. -/
def c1RawEntry : Event :=
  { id := none, source := ""
    content := { title := none, description := none, linkUrl := none, linkBody := none }
    location := none, dateTimeIndication := none, organizers := none, classification := none
    uzh := none, vis := none, esn := none, vmp := none }

/-- What the ETH adapter makes of that raw entry. -/
def c1EthOutput : Event := { c1RawEntry with source := "ETH" }

/-- Claim C1, counterexample: the ETH adapter performs no required-field
validation, so an entry with no id and no title passes straight through
(only the source tag is set), violating the claimed invariant for
`fetchEthEvents`. -/
theorem c1_counterexample :
    fetchEthEvents (.ok { entryArray := some [c1RawEntry] }) = [c1EthOutput]
  ∧ c1EthOutput.id = none ∧ c1EthOutput.content.title = none
  ∧ jsTruthyOpt c1EthOutput.id = false ∧ c1EthOutput.source = "ETH" :=
  ⟨rfl, rfl, rfl, rfl, rfl⟩

/-- A raw UZH entry whose epoch strings are out of order. -/
def c3UzhRaw : UzhRaw :=
  { id := some "u2", dtstart := some "1000", dtend := some "500", title := some "Backwards"
    description := none, more := none, address := none, bldg := none, building := none
    room := none, room_nr := none, speaker := none, contact_name := none, contact_mail := none
    is_virtual := none, virtual_url := none, virtual_location := none, start_date := none
    top := none, note := none }

/-- Claim C3, counterexample: the UZH adapter validates only that both
timestamps parse to valid dates, never their order, so `dtstart` 1000
and `dtend` 500 produce a window with start strictly after end. -/
theorem c3_counterexample :
    (fetchUzhEvents (.ok (some [c3UzhRaw]))).length = 1
  ∧ (fetchUzhEvents (.ok (some [c3UzhRaw]))).map
      (fun e => (e.dateTimeIndication.bind (fun d => d.timerangeArray)).getD []) =
      [[{ dateTimeFrom := 1000, dateTimeTo := 500 }]]
  ∧ ¬((1000 : Int) ≤ 500) :=
  ⟨rfl, rfl, by decide⟩

/-- The ESN detail page of claim C4: a parseable `When` row and a
heading title but no entrance-fee row at all. -/
def c4NoFeePage : EsnDetailPage :=
  { tables := [[["When", "Wed 3. December 2025 20:00 - 23:55"]]]
    heading := some "Pizza Night at ESN" }

/-- The same page with an explicit all-zero entrance-fee row. -/
def c4ZeroFeePage : EsnDetailPage :=
  { tables := [[["When", "Wed 3. December 2025 20:00 - 23:55"],
                ["Entrance Fee", "without ESNcard: CHF 0.00 with ESNcard: CHF 0.00"]]]
    heading := some "Pizza Night at ESN" }

/-- Claim C4, divergence witnessed: on a detail page with no
entrance-fee row both price fields stay unassigned, yet the event is
dropped, because `isFree` is initialised to false and only an
entrance-fee row ever recomputes it; the same page with an explicit
zero-fee row is retained.  This contradicts the adjacent source comment
that events with both prices 0 or undefined are the free ones to keep. -/
theorem c4_esn_free_divergence :
    esnProcessDetail "77" c4NoFeePage = none
  ∧ ((c4NoFeePage.tables.flatten).foldl esnRowStep
      ⟨"", "", "", "", none, none, false⟩).priceWithCard = none
  ∧ ((c4NoFeePage.tables.flatten).foldl esnRowStep
      ⟨"", "", "", "", none, none, false⟩).priceWithoutCard = none
  ∧ (esnProcessDetail "77" c4ZeroFeePage).isSome = true :=
  ⟨rfl, rfl, rfl, by decide⟩

/-- Claim C5, divergence witnessed: the dotted-date regex makes the hour
group mandatory, so the documented no-time shape `2.12.2025` fails to
parse entirely instead of defaulting to midnight, while the timed shape
parses to exactly 2025-12-02T16:00. -/
theorem c5_dotted_date :
    parseDateString "2.12.2025" = none
  ∧ parseDateString "2.12.2025 16:00" = some (mkJsDateMs 2025 11 2 16 0)
  ∧ parseDateString "2.12.2025 16:00" ≠ some (mkJsDateMs 2025 11 2 0 0) :=
  ⟨rfl, rfl, by decide⟩

/-- Claim C6, counterexample: an input matching the single-day shape
whose month token is outside the English table returns a result object
holding two invalid dates, not the `null` sentinel. -/
theorem c6_counterexample :
    parseEsnDateString "Wed 3. Foobar 2025 20:00 - 23:55" =
      some { startDate := none, endDate := none }
  ∧ parseEsnDateString "Wed 3. Foobar 2025 20:00 - 23:55" ≠ none :=
  ⟨rfl, by decide⟩

/-- Claim C8, counterexample: toggling against a corrupt stored value
hits the catch arm, which returns false and writes nothing, instead of
registering the id on an empty list and returning true. -/
theorem c8_counterexample :
    toggleUserRegistration .malformed "e1" = (false, .malformed)
  ∧ toggleUserRegistration .malformed "e1" ≠ (true, .stored ["e1"]) :=
  ⟨rfl, by decide⟩

/-- A VIS-source event whose text matches no food keyword. -/
def c9VisEvent : Event :=
  { id := some "9", source := "VIS"
    content := { title := some "Board Meeting", description := some "", linkUrl := none,
                 linkBody := none }
    location := none, dateTimeIndication := none, organizers := none, classification := none
    uzh := none, vis := none, esn := none, vmp := none }

/-- Claim C9, counterexample: the food filter keeps every VIS, ESN and
VMP event unconditionally, so a retained VIS event can have no matching
keyword available for highlighting. -/
theorem c9_counterexample :
    filterEventsWithFood [c9VisEvent] = [c9VisEvent]
  ∧ getFoodKeyword c9VisEvent = none
  ∧ eventHasFood c9VisEvent = false :=
  ⟨rfl, rfl, rfl⟩

/-- Claim C2: the time-window filter at instant `now` with the default
fourteen-day horizon keeps a single-window event starting thirteen days
ahead, drops one starting fifteen days ahead, drops events with zero
windows (an empty timerange array or no indication at all), and keeps
an opening-hours-only event exactly when its range overlaps the
window. -/
theorem c2_time_window_filter (now endv f t : Int) :
    filterEventsNext2Weeks now [trEvent (now + 13 * 86400000) endv] =
      [trEvent (now + 13 * 86400000) endv]
  ∧ filterEventsNext2Weeks now [trEvent (now + 15 * 86400000) endv] = []
  ∧ filterEventsNext2Weeks now [emptyWindowsEvent] = []
  ∧ filterEventsNext2Weeks now [noDtiEvent] = []
  ∧ (filterEventsNext2Weeks now [openingEvent f t] = [openingEvent f t]
      ↔ (f ≤ now + 14 * 86400000 ∧ now ≤ t)) := by
  refine ⟨?_, ?_, rfl, rfl, ?_⟩
  · have hc : ((decide (now ≤ now + 13 * 86400000) &&
        decide (now + 13 * 86400000 ≤ now + 14 * 86400000)) || false) = true := by
      simp only [Bool.or_false, Bool.and_eq_true, decide_eq_true_eq]
      omega
    simp only [filterEventsNext2Weeks, trEvent, List.filter_cons, List.filter_nil,
      List.any_cons, List.any_nil]
    rw [if_pos hc]
  · have hc : ¬(((decide (now ≤ now + 15 * 86400000) &&
        decide (now + 15 * 86400000 ≤ now + 14 * 86400000)) || false) = true) := by
      simp only [Bool.or_false, Bool.and_eq_true, decide_eq_true_eq]
      omega
    simp only [filterEventsNext2Weeks, trEvent, List.filter_cons, List.filter_nil,
      List.any_cons, List.any_nil]
    rw [if_neg hc]
  · by_cases hC : (f ≤ now + 14 * 86400000 ∧ now ≤ t)
    · have hc : ((decide (f ≤ now + 14 * 86400000) && decide (now ≤ t))) = true := by
        simp only [Bool.and_eq_true, decide_eq_true_eq]
        omega
      simp only [filterEventsNext2Weeks, openingEvent, trEvent, List.filter_cons,
        List.filter_nil]
      rw [if_pos hc]
      exact iff_of_true rfl hC
    · have hc : ¬(((decide (f ≤ now + 14 * 86400000) && decide (now ≤ t))) = true) := by
        simp only [Bool.and_eq_true, decide_eq_true_eq]
        exact fun h => hC h
      simp only [filterEventsNext2Weeks, openingEvent, trEvent, List.filter_cons,
        List.filter_nil]
      rw [if_neg hc]
      constructor
      · intro h
        exact List.noConfusion h
      · intro h
        exact absurd h hC

/-- Claim C8, amended: with a missing or corrupt stored value,
`isUserRegistered` is false and `getUserRegistrations` is empty for
every id; `toggleUserRegistration` toggles on the empty list only for
the missing value (registering the id and returning true), while for a
corrupt value its catch arm returns false and writes nothing. -/
theorem c8_amended_registration_store (eventId : String) :
    isUserRegistered .absent eventId = false
  ∧ isUserRegistered .malformed eventId = false
  ∧ getUserRegistrations .absent = []
  ∧ getUserRegistrations .malformed = []
  ∧ toggleUserRegistration .absent eventId = (true, .stored [eventId])
  ∧ toggleUserRegistration .malformed eventId = (false, .malformed) :=
  ⟨rfl, rfl, rfl, rfl, rfl, rfl⟩

/-- Claim C6, amended: the verbose-weekday parser returns the `null`
sentinel exactly when neither date shape matches anywhere in the input
(it is a total function, so it never throws); a shape-matching input
with an unresolvable month token instead yields a result object with
invalid dates, as witnessed by the counterexample. -/
theorem c6_amended_esn_parser_null (s : String) :
    parseEsnDateString s = none ↔
      (esnMultiDayMatch s = none ∧ esnSingleDayMatch s = none) := by
  unfold parseEsnDateString
  cases h1 : esnMultiDayMatch s with
  | some p =>
    cases p
    simp [h1]
  | none =>
    cases h2 : esnSingleDayMatch s with
    | some p =>
      obtain ⟨s1, h2', mi2⟩ := p
      simp [h1, h2]
    | none => simp [h1, h2]

/-- A successful unanchored search means the matcher succeeded at some
suffix. -/
theorem searchAt_some {α : Type} {m : List Char → Option α} {l : List Char} {r : α}
    (h : searchAt m l = some r) : ∃ l', m l' = some r := by
  induction l with
  | nil => exact ⟨[], h⟩
  | cons c rest ih =>
    unfold searchAt at h
    cases hm : m (c :: rest) with
    | some r' =>
      rw [hm] at h
      exact ⟨c :: rest, hm ▸ h⟩
    | none =>
      rw [hm] at h
      exact ih h

/-- A `\d+` capture is never the empty string. -/
theorem digits1_ne_nil {l ds r : List Char} (h : digits1 l = some (ds, r)) : ds ≠ [] := by
  unfold digits1 at h
  cases htd : takeDigits l with
  | mk fst snd =>
    rw [htd] at h
    cases fst with
    | nil => exact absurd h (by simp)
    | cons c cs =>
      simp only [Option.some_inj, Prod.mk.injEq] at h
      intro hne
      rw [← h.1] at hne
      exact List.noConfusion hne

/-- The id a VIS href yields is a non-empty digit string. -/
theorem visHrefId_ne_empty {href : String} {id : String} (h : visHrefId href = some id) :
    id.data ≠ [] := by
  obtain ⟨l', hm⟩ := searchAt_some h
  unfold visHrefMatchAt at hm
  simp only [Option.pure_def, Option.bind_eq_bind, Option.bind_eq_some] at hm
  obtain ⟨l1, hl1, ⟨ds, l2⟩, hds, l3, hl3, hid⟩ := hm
  simp only [Option.some_inj] at hid
  rw [← hid]
  exact digits1_ne_nil hds

/-- The id an ESN href yields is a non-empty digit string. -/
theorem esnHrefId_ne_empty {href : String} {id : String} (h : esnHrefId href = some id) :
    id.data ≠ [] := by
  obtain ⟨l', hm⟩ := searchAt_some h
  unfold esnHrefMatchAt at hm
  simp only [Option.pure_def, Option.bind_eq_bind, Option.bind_eq_some] at hm
  obtain ⟨l1, hl1, ⟨ds, l2⟩, hds, hid⟩ := hm
  simp only [Option.some_inj] at hid
  rw [← hid]
  exact digits1_ne_nil hds

/-- The slug a VMP href yields is a non-empty segment. -/
theorem vmpSlugId_ne_empty {href : String} {id : String} (h : vmpSlugId href = some id) :
    id.data ≠ [] := by
  obtain ⟨l', hm⟩ := searchAt_some h
  unfold vmpSlugMatchAt at hm
  simp only [Option.pure_def, Option.bind_eq_bind, Option.bind_eq_some] at hm
  obtain ⟨l1, hl1, ⟨seg, l2⟩, hseg, hrest⟩ := hm
  have hne : seg ≠ [] := by
    revert hseg
    cases hsp : l1.span (fun c => !(c == '/')) with
    | mk fst snd =>
      cases fst with
      | nil => intro hseg; exact absurd hseg (by simp)
      | cons c cs =>
        intro hseg
        simp only [Option.some_inj, Prod.mk.injEq] at hseg
        intro habs
        rw [← hseg.1] at habs
        exact List.noConfusion habs
  have hid : id = String.mk seg := by
    split at hrest
    · simp only [Option.some_inj] at hrest
      exact hrest.symm
    · simp only [Option.some_inj] at hrest
      exact hrest.symm
    · exact absurd hrest (by simp)
  rw [hid]
  exact hne

/-- Every event the UZH converter emits carries the UZH tag, the truthy
raw id and the truthy raw title. -/
theorem uzhConvert_spec {u : UzhRaw} {e : Event} (h : uzhConvert u = some e) :
    e.source = "UZH" ∧ jsTruthyOpt e.id = true ∧ jsTruthyOpt e.content.title = true := by
  unfold uzhConvert at h
  split at h
  · exact absurd h (by simp)
  · rename_i hguard
    simp only [Bool.not_eq_true, Bool.or_eq_false_iff, Bool.not_eq_false'] at hguard
    obtain ⟨⟨⟨hid, hstart⟩, hend⟩, htitle⟩ := hguard
    simp only [Option.pure_def, Option.bind_eq_bind, Option.bind_eq_some,
      Option.some_inj] at h
    obtain ⟨st, hst, en, hen, sd, hsd, ed, hed, he⟩ := h
    rw [← he]
    exact ⟨rfl, hid, htitle⟩

/-- Every event the VIS card processor emits carries the VIS tag, the
extracted id and a truthy title. -/
theorem visProcessCard_spec {eventId : String} {a : Anchor} {e : Event}
    (h : visProcessCard eventId a = some e) :
    e.source = "VIS" ∧ e.id = some eventId ∧ jsTruthyOpt e.content.title = true := by
  simp only [visProcessCard] at h
  split at h
  · rename_i startTime endTime harm
    split at h
    · exact absurd h (by simp)
    · rename_i htitle
      split at h
      · exact absurd h (by simp)
      · simp only [Option.some_inj] at h
        rw [← h]
        have hne : (visScan
            (List.filter (fun l => !l.data.isEmpty)
              (List.map jsTrim (a.textContent.split fun c => c == '\n')))
            ⟨"", none, none, "", "", true⟩).title.data.isEmpty = false := by
          cases hb : (visScan
              (List.filter (fun l => !l.data.isEmpty)
                (List.map jsTrim (a.textContent.split fun c => c == '\n')))
              ⟨"", none, none, "", "", true⟩).title.data.isEmpty
          · rfl
          · exact absurd hb htitle
        refine ⟨rfl, rfl, ?_⟩
        simp [jsTruthyOpt, hne]
  · exact absurd h (by simp)

/-- A string known to be non-empty is JS-truthy. -/
theorem jsTruthyOpt_of_not_empty {s : String} (h : ¬(s.data.isEmpty = true)) :
    jsTruthyOpt (some s) = true := by
  simp only [jsTruthyOpt, Bool.not_eq_true] at h ⊢
  simp [h]

/-- Every event the ESN detail processor emits carries the ESN tag, the
extracted id and a truthy title. -/
theorem esnProcessDetail_spec {eventId : String} {page : EsnDetailPage} {e : Event}
    (h : esnProcessDetail eventId page = some e) :
    e.source = "ESN" ∧ e.id = some eventId ∧ jsTruthyOpt e.content.title = true := by
  simp only [esnProcessDetail] at h
  repeat' split at h
  all_goals try exact Option.noConfusion h
  simp only [Option.some_inj] at h
  rw [← h]
  refine ⟨rfl, rfl, ?_⟩
  exact jsTruthyOpt_of_not_empty (by assumption)

/-- Every event the VMP item processor emits carries the VMP tag, the
extracted slug and a truthy title. -/
theorem vmpProcessItem_spec {slug : String} {page : VmpDetailPage} {e : Event}
    (h : vmpProcessItem slug page = some e) :
    e.source = "VMP" ∧ e.id = some slug ∧ jsTruthyOpt e.content.title = true := by
  simp only [vmpProcessItem] at h
  repeat' split at h
  all_goals try exact Option.noConfusion h
  simp only [Option.some_inj] at h
  rw [← h]
  refine ⟨rfl, rfl, ?_⟩
  exact jsTruthyOpt_of_not_empty (by assumption)

/-- Every ETH adapter output carries the overridden ETH tag. -/
theorem fetchEthEvents_source {i : Except Unit EthPayload} {e : Event}
    (h : e ∈ fetchEthEvents i) : e.source = "ETH" := by
  cases i with
  | error u => exact absurd h (by simp [fetchEthEvents])
  | ok data =>
    simp only [fetchEthEvents, List.mem_map] at h
    obtain ⟨ev, _, he⟩ := h
    rw [← he]

/-- Every UZH adapter output is a converter output. -/
theorem mem_fetchUzhEvents {i : Except Unit (Option (List UzhRaw))} {e : Event}
    (h : e ∈ fetchUzhEvents i) : ∃ u, uzhConvert u = some e := by
  cases i with
  | error u => exact absurd h (by simp [fetchUzhEvents])
  | ok payload =>
    cases payload with
    | none => exact absurd h (by simp [fetchUzhEvents])
    | some raws =>
      simp only [fetchUzhEvents, List.mem_filter, List.mem_filterMap] at h
      obtain ⟨⟨u, _, hu⟩, _⟩ := h
      exact ⟨u, hu⟩

/-- Every event the VIS de-duplicating walk emits is a card-processor
output on an id extracted from some anchor. -/
theorem mem_visCollect {anchors : List Anchor} {seen : List String} {e : Event}
    (h : e ∈ visCollect anchors seen) :
    ∃ id a, visHrefId a.href = some id ∧ visProcessCard id a = some e := by
  induction anchors generalizing seen with
  | nil => exact absurd h (by simp [visCollect])
  | cons a rest ih =>
    unfold visCollect at h
    split at h
    next => exact ih h
    next eventId heq =>
      split at h
      next => exact ih h
      next =>
        split at h
        next => exact ih h
        next e' hp =>
          cases h with
          | head => exact ⟨eventId, a, heq, hp⟩
          | tail _ h' => exact ih h'

/-- Every VIS adapter output is a card-processor output on an extracted
id. -/
theorem mem_fetchVisEvents {i : Except Unit (List Anchor)} {e : Event}
    (h : e ∈ fetchVisEvents i) :
    ∃ id a, visHrefId a.href = some id ∧ visProcessCard id a = some e := by
  cases i with
  | error u => exact absurd h (by simp [fetchVisEvents])
  | ok anchors => exact mem_visCollect h

/-- Every id the ESN phase-1 collection yields is an href capture. -/
theorem mem_esnCollectIds {hrefs : List String} {seen : List String} {id : String}
    (h : id ∈ esnCollectIds hrefs seen) : ∃ href, esnHrefId href = some id := by
  induction hrefs generalizing seen with
  | nil => exact absurd h (by simp [esnCollectIds])
  | cons href rest ih =>
    unfold esnCollectIds at h
    split at h
    next id' heq =>
      split at h
      next => exact ih h
      next =>
        cases h with
        | head => exact ⟨href, heq⟩
        | tail _ h' => exact ih h'
    next => exact ih h

/-- Every ESN adapter output is a detail-processor output on a collected
href id. -/
theorem mem_fetchEsnEvents {i : Except Unit EsnPayload} {e : Event}
    (h : e ∈ fetchEsnEvents i) :
    ∃ id page, (∃ href, esnHrefId href = some id) ∧ esnProcessDetail id page = some e := by
  cases i with
  | error u => exact absurd h (by simp [fetchEsnEvents])
  | ok p =>
    simp only [fetchEsnEvents, List.mem_filterMap] at h
    obtain ⟨eventId, hmem, hproc⟩ := h
    revert hproc
    cases hl : lookupEsnDetail p.details eventId with
    | none => intro hproc; exact Option.noConfusion hproc
    | some page =>
      intro hproc
      exact ⟨eventId, page, mem_esnCollectIds hmem, hproc⟩

/-- Every slug the VMP phase-1 collection yields is an href capture. -/
theorem mem_vmpCollectSlugs {hrefs : List String} {seen : List String} {s : String}
    (h : s ∈ vmpCollectSlugs hrefs seen) : ∃ href, vmpSlugId href = some s := by
  induction hrefs generalizing seen with
  | nil => exact absurd h (by simp [vmpCollectSlugs])
  | cons href rest ih =>
    unfold vmpCollectSlugs at h
    split at h
    next s' heq =>
      split at h
      next => exact ih h
      next =>
        cases h with
        | head => exact ⟨href, heq⟩
        | tail _ h' => exact ih h'
    next => exact ih h

/-- Every VMP adapter output is an item-processor output on a collected
slug. -/
theorem mem_fetchVmpEvents {i : Except Unit VmpPayload} {e : Event}
    (h : e ∈ fetchVmpEvents i) :
    ∃ slug page, (∃ href, vmpSlugId href = some slug) ∧ vmpProcessItem slug page = some e := by
  cases i with
  | error u => exact absurd h (by simp [fetchVmpEvents])
  | ok p =>
    simp only [fetchVmpEvents, List.mem_filterMap] at h
    obtain ⟨slug, hmem, hproc⟩ := h
    revert hproc
    cases hl : lookupVmpDetail p.details slug with
    | none => intro hproc; exact Option.noConfusion hproc
    | some page =>
      intro hproc
      exact ⟨slug, page, mem_vmpCollectSlugs hmem, hproc⟩

/-- A string with at least one character is JS-truthy. -/
theorem jsTruthyOpt_of_ne_nil {s : String} (h : s.data ≠ []) :
    jsTruthyOpt (some s) = true := by
  simp only [jsTruthyOpt, Bool.not_eq_true']
  cases hd : s.data with
  | nil => exact absurd hd h
  | cons c cs => rfl

/-- Claim C1, amended: every event the UZH, VIS, ESN and VMP adapters
produce has a truthy (non-empty) id, a truthy title and its source tag;
the ETH adapter always tags its source but passes id and title through
from the payload unvalidated, as the counterexample shows. -/
theorem c1_amended_adapter_invariants :
    (∀ (i : Except Unit (Option (List UzhRaw))) (e : Event), e ∈ fetchUzhEvents i →
      e.source = "UZH" ∧ jsTruthyOpt e.id = true ∧ jsTruthyOpt e.content.title = true)
  ∧ (∀ (i : Except Unit (List Anchor)) (e : Event), e ∈ fetchVisEvents i →
      e.source = "VIS" ∧ jsTruthyOpt e.id = true ∧ jsTruthyOpt e.content.title = true)
  ∧ (∀ (i : Except Unit EsnPayload) (e : Event), e ∈ fetchEsnEvents i →
      e.source = "ESN" ∧ jsTruthyOpt e.id = true ∧ jsTruthyOpt e.content.title = true)
  ∧ (∀ (i : Except Unit VmpPayload) (e : Event), e ∈ fetchVmpEvents i →
      e.source = "VMP" ∧ jsTruthyOpt e.id = true ∧ jsTruthyOpt e.content.title = true)
  ∧ (∀ (i : Except Unit EthPayload) (e : Event), e ∈ fetchEthEvents i →
      e.source = "ETH") := by
  refine ⟨?_, ?_, ?_, ?_, ?_⟩
  · intro i e h
    obtain ⟨u, hu⟩ := mem_fetchUzhEvents h
    exact uzhConvert_spec hu
  · intro i e h
    obtain ⟨id, a, hid, hp⟩ := mem_fetchVisEvents h
    obtain ⟨hsrc, hide, htitle⟩ := visProcessCard_spec hp
    refine ⟨hsrc, ?_, htitle⟩
    rw [hide]
    exact jsTruthyOpt_of_ne_nil (visHrefId_ne_empty hid)
  · intro i e h
    obtain ⟨id, page, ⟨href, hid⟩, hp⟩ := mem_fetchEsnEvents h
    obtain ⟨hsrc, hide, htitle⟩ := esnProcessDetail_spec hp
    refine ⟨hsrc, ?_, htitle⟩
    rw [hide]
    exact jsTruthyOpt_of_ne_nil (esnHrefId_ne_empty hid)
  · intro i e h
    obtain ⟨slug, page, ⟨href, hid⟩, hp⟩ := mem_fetchVmpEvents h
    obtain ⟨hsrc, hide, htitle⟩ := vmpProcessItem_spec hp
    refine ⟨hsrc, ?_, htitle⟩
    rw [hide]
    exact jsTruthyOpt_of_ne_nil (vmpSlugId_ne_empty hid)
  · intro i e h
    exact fetchEthEvents_source h

/-- The event the UZH adapter builds from `c3UzhRaw`. -/
def c1wUzhEvent : Event :=
  { id := some "u2", source := "UZH"
    content := { title := some "Backwards", description := some "", linkUrl := none,
                 linkBody := some "More Information" }
    location := some { areaDesc := "", building := "", room := "", addition := "" }
    dateTimeIndication := some { timerangeArray := some [{ dateTimeFrom := 1000, dateTimeTo := 500 }],
                                 openingHours := none }
    organizers := some [{ name := "University of Zurich", nameShort := "UZH" }]
    classification := some { entryTypeDesc := "UZH Event", targetGroupDesc := none }
    uzh := some { speaker := none, contact_name := none, contact_mail := none, is_virtual := none,
                  virtual_url := none, virtual_location := none, start_date := none, top := none,
                  note := none }
    vis := none, esn := none, vmp := none }

/-- Witness for the amended C1 invariant, at a concrete UZH payload. -/
theorem c1_amended_adapter_invariants_witness :
    c1wUzhEvent.source = "UZH" ∧ jsTruthyOpt c1wUzhEvent.id = true ∧
      jsTruthyOpt c1wUzhEvent.content.title = true :=
  c1_amended_adapter_invariants.1 (.ok (some [c3UzhRaw])) c1wUzhEvent (by decide)

/-- A valid `new Date(ms)` denotes exactly `ms`. -/
theorem jsDateFromMs_eq {x y : Int} (h : jsDateFromMs x = some y) : y = x := by
  unfold jsDateFromMs at h
  split at h
  · exact (Option.some_inj.mp h).symm
  · exact Option.noConfusion h

/-- When the VMP parser yields two valid dates, the end is the start
plus a nonnegative duration (parsed `H:MM:SS`, the two-hour default, or
zero), so start never exceeds end. -/
theorem parseVmpDateString_ordered {dateStr durationStr : String} {sd ed : Option Int}
    {s t : Int} (h : parseVmpDateString dateStr durationStr = some (sd, ed))
    (hs : sd = some s) (ht : ed = some t) : s ≤ t := by
  unfold parseVmpDateString at h
  split at h
  · exact Option.noConfusion h
  · split at h
    · exact Option.noConfusion h
    · simp only [Option.some_inj, Prod.mk.injEq] at h
      have hstart := h.1.trans hs
      have hend := h.2.trans ht
      clear h
      split at hend
      · rw [hstart] at hend
        simp only [Option.some_bind] at hend
        have := jsDateFromMs_eq hend
        omega
      · split at hend
        · rw [hstart] at hend
          simp only [Option.some_bind] at hend
          have heq := jsDateFromMs_eq hend
          simp only [Int.ofNat_eq_coe] at heq
          omega
        · rw [hstart] at hend
          have := Option.some_inj.mp hend
          omega

/-- The time windows of an event (the timerange array, else none). -/
def eventWindows (e : Event) : List TimeRange :=
  match e.dateTimeIndication with
  | some dti => dti.timerangeArray.getD []
  | none => []

/-- Every window the VMP item processor emits is ordered: its end is
its start plus the nonnegative parsed duration. -/
theorem vmpProcessItem_windows {slug : String} {page : VmpDetailPage} {e : Event}
    (h : vmpProcessItem slug page = some e) {w : TimeRange} (hw : w ∈ eventWindows e) :
    w.dateTimeFrom ≤ w.dateTimeTo := by
  simp only [vmpProcessItem] at h
  split at h
  · exact Option.noConfusion h
  · rename_i dates hparse
    split at h
    · exact Option.noConfusion h
    · split at h
      · have hord := parseVmpDateString_ordered hparse rfl rfl
        simp only [Option.some_inj] at h
        rw [← h] at hw
        simp only [eventWindows, Option.getD] at hw
        cases hw with
        | head => exact hord
        | tail _ h' => exact absurd h' (List.not_mem_nil _)
      · exact Option.noConfusion h

/-- Claim C3, amended: every window the VMP adapter emits satisfies
start ≤ end (the end is derived by adding a nonnegative duration); the
UZH, VIS and ESN adapters copy start and end from the source data with
no ordering check, and the counterexample exhibits a UZH window with
start after end. -/
theorem c3_amended_vmp_windows_ordered (i : Except Unit VmpPayload) (e : Event)
    (w : TimeRange) (he : e ∈ fetchVmpEvents i) (hw : w ∈ eventWindows e) :
    w.dateTimeFrom ≤ w.dateTimeTo := by
  obtain ⟨slug, page, _, hp⟩ := mem_fetchVmpEvents he
  exact vmpProcessItem_windows hp hw

/-- A concrete VMP detail page with a parseable date and duration. -/
def c3wVmpPage : VmpDetailPage :=
  { h1 := some "Physics Pizza"
    paragraphs := ["This is a long paragraph describing the gala event in detail."]
    bodyText := "Some text Dec. 3, 2025, 6 p.m. and Duration: 4:00:00 more" }

/-- The concrete VMP listing payload built on that page. -/
def c3wVmpPayload : VmpPayload :=
  { hrefs := ["/en/events/cool-party/"], details := [("cool-party", some c3wVmpPage)] }

/-- The event the VMP adapter extracts from that payload. -/
def c3wVmpEvent : Event :=
  { id := some "cool-party", source := "VMP"
    content := { title := some "Physics Pizza"
                 description := some "This is a long paragraph describing the gala event in detail."
                 linkUrl := some "https://vmp.ethz.ch/en/events/cool-party/"
                 linkBody := some "More Information" }
    location := some { areaDesc := "", building := "", room := "", addition := "" }
    dateTimeIndication := some
      { timerangeArray := some [{ dateTimeFrom := 1764784800000, dateTimeTo := 1764799200000 }]
        openingHours := none }
    organizers := some [{ name := "VMP - Physics Association at ETH", nameShort := "VMP" }]
    classification := some { entryTypeDesc := "VMP Event", targetGroupDesc := some "Physics Students" }
    uzh := none, vis := none, esn := none
    vmp := some { slug := "cool-party", duration := "4:00:00" } }

/-- Witness for the amended C3 ordering, at a concrete VMP payload. -/
theorem c3_amended_vmp_windows_ordered_witness :
    ({ dateTimeFrom := 1764784800000, dateTimeTo := 1764799200000 } : TimeRange).dateTimeFrom ≤
      ({ dateTimeFrom := 1764784800000, dateTimeTo := 1764799200000 } : TimeRange).dateTimeTo :=
  c3_amended_vmp_windows_ordered (.ok c3wVmpPayload) c3wVmpEvent
    { dateTimeFrom := 1764784800000, dateTimeTo := 1764799200000 }
    (by decide) (by decide)

/-- Claim C9, amended: the food predicate and the keyword finder agree
exactly (same lexicon, same lowered text, same substring test), and
every event the food filter retains either belongs to the VIS/ESN/VMP
allow-list or has a matching keyword available for highlighting;
allow-listed events may be retained with no matching keyword, as the
counterexample shows. -/
theorem c9_amended_food_consistency (e : Event) (l : List Event) :
    (eventHasFood e = true ↔ ∃ k, getFoodKeyword e = some k)
  ∧ (e ∈ filterEventsWithFood l →
      (e.source = "VIS" ∨ e.source = "ESN" ∨ e.source = "VMP") ∨
      ∃ k, getFoodKeyword e = some k) := by
  constructor
  · simp only [eventHasFood, List.any_eq_true]
    rw [← Option.isSome_iff_exists, getFoodKeyword, List.find?_isSome]
  · intro hmem
    have hpred := (List.mem_filter.mp hmem).2
    by_cases hsrc : (e.source == "VIS" || e.source == "ESN" || e.source == "VMP") = true
    · left
      simp only [Bool.or_eq_true, beq_iff_eq] at hsrc
      tauto
    · right
      rw [if_neg hsrc] at hpred
      rw [← Option.isSome_iff_exists, getFoodKeyword, List.find?_isSome]
      exact List.any_eq_true.mp hpred

/-- An ETH-source event whose title matches the lexicon. -/
def c9wFoodEvent : Event :=
  { id := some "f1", source := "ETH"
    content := { title := some "Apéro Reception", description := some "", linkUrl := none,
                 linkBody := none }
    location := none, dateTimeIndication := none, organizers := none, classification := none
    uzh := none, vis := none, esn := none, vmp := none }

/-- Witness for the amended C9 consistency, at a concrete retained
event. -/
theorem c9_amended_food_consistency_witness :
    (c9wFoodEvent.source = "VIS" ∨ c9wFoodEvent.source = "ESN" ∨ c9wFoodEvent.source = "VMP") ∨
      ∃ k, getFoodKeyword c9wFoodEvent = some k :=
  (c9_amended_food_consistency c9wFoodEvent [c9wFoodEvent]).2 (by decide)

/-- Every UZH adapter output carries the UZH tag. -/
theorem fetchUzhEvents_source {i : Except Unit (Option (List UzhRaw))} {e : Event}
    (h : e ∈ fetchUzhEvents i) : e.source = "UZH" := by
  obtain ⟨u, hu⟩ := mem_fetchUzhEvents h
  exact (uzhConvert_spec hu).1

/-- Every VIS adapter output carries the VIS tag. -/
theorem fetchVisEvents_source {i : Except Unit (List Anchor)} {e : Event}
    (h : e ∈ fetchVisEvents i) : e.source = "VIS" := by
  obtain ⟨id, a, _, hp⟩ := mem_fetchVisEvents h
  exact (visProcessCard_spec hp).1

/-- Every ESN adapter output carries the ESN tag. -/
theorem fetchEsnEvents_source {i : Except Unit EsnPayload} {e : Event}
    (h : e ∈ fetchEsnEvents i) : e.source = "ESN" := by
  obtain ⟨id, page, _, hp⟩ := mem_fetchEsnEvents h
  exact (esnProcessDetail_spec hp).1

/-- Every VMP adapter output carries the VMP tag. -/
theorem fetchVmpEvents_source {i : Except Unit VmpPayload} {e : Event}
    (h : e ∈ fetchVmpEvents i) : e.source = "VMP" := by
  obtain ⟨slug, page, _, hp⟩ := mem_fetchVmpEvents h
  exact (vmpProcessItem_spec hp).1

/-- Filtering a list for a source tag none of its events carries gives
the empty list. -/
theorem filter_source_nil {l : List Event} {s : String} (h : ∀ e ∈ l, e.source ≠ s) :
    l.filter (fun e => e.source == s) = [] := by
  rw [List.filter_eq_nil_iff]
  intro e he
  simp only [beq_iff_eq]
  exact h e he

/-- Claim C7: the aggregator always resolves to the concatenation of the
five adapter outputs in the fixed order ETH, UZH, VIS, ESN, VMP, and a
total failure of any single adapter leaves the aggregate equal to the
concatenation of the other four, with zero records attributed to the
failing source. -/
theorem c7_aggregator_resilience (i1 : Except Unit EthPayload)
    (i2 : Except Unit (Option (List UzhRaw))) (i3 : Except Unit (List Anchor))
    (i4 : Except Unit EsnPayload) (i5 : Except Unit VmpPayload) :
    fetchEvents i1 i2 i3 i4 i5 =
      fetchEthEvents i1 ++ fetchUzhEvents i2 ++ fetchVisEvents i3 ++
        fetchEsnEvents i4 ++ fetchVmpEvents i5
  ∧ (i1 = .error () →
      (fetchEvents i1 i2 i3 i4 i5).filter (fun e => e.source == "ETH") = []
    ∧ fetchEvents i1 i2 i3 i4 i5 =
        fetchUzhEvents i2 ++ fetchVisEvents i3 ++ fetchEsnEvents i4 ++ fetchVmpEvents i5)
  ∧ (i2 = .error () →
      (fetchEvents i1 i2 i3 i4 i5).filter (fun e => e.source == "UZH") = []
    ∧ fetchEvents i1 i2 i3 i4 i5 =
        fetchEthEvents i1 ++ fetchVisEvents i3 ++ fetchEsnEvents i4 ++ fetchVmpEvents i5)
  ∧ (i3 = .error () →
      (fetchEvents i1 i2 i3 i4 i5).filter (fun e => e.source == "VIS") = []
    ∧ fetchEvents i1 i2 i3 i4 i5 =
        fetchEthEvents i1 ++ fetchUzhEvents i2 ++ fetchEsnEvents i4 ++ fetchVmpEvents i5)
  ∧ (i4 = .error () →
      (fetchEvents i1 i2 i3 i4 i5).filter (fun e => e.source == "ESN") = []
    ∧ fetchEvents i1 i2 i3 i4 i5 =
        fetchEthEvents i1 ++ fetchUzhEvents i2 ++ fetchVisEvents i3 ++ fetchVmpEvents i5)
  ∧ (i5 = .error () →
      (fetchEvents i1 i2 i3 i4 i5).filter (fun e => e.source == "VMP") = []
    ∧ fetchEvents i1 i2 i3 i4 i5 =
        fetchEthEvents i1 ++ fetchUzhEvents i2 ++ fetchVisEvents i3 ++ fetchEsnEvents i4) := by
  refine ⟨rfl, ?_, ?_, ?_, ?_, ?_⟩
  · intro h1
    subst h1
    constructor
    · simp only [fetchEvents, List.filter_append]
      rw [show List.filter (fun e => e.source == "ETH") (fetchEthEvents (.error ())) = []
          from rfl,
        filter_source_nil (fun e he => by rw [fetchUzhEvents_source he]; decide),
        filter_source_nil (fun e he => by rw [fetchVisEvents_source he]; decide),
        filter_source_nil (fun e he => by rw [fetchEsnEvents_source he]; decide),
        filter_source_nil (fun e he => by rw [fetchVmpEvents_source he]; decide)]
      rfl
    · rfl
  · intro h2
    subst h2
    constructor
    · simp only [fetchEvents, List.filter_append]
      rw [show List.filter (fun e => e.source == "UZH") (fetchUzhEvents (.error ())) = []
          from rfl,
        filter_source_nil (fun e he => by rw [fetchEthEvents_source he]; decide),
        filter_source_nil (fun e he => by rw [fetchVisEvents_source he]; decide),
        filter_source_nil (fun e he => by rw [fetchEsnEvents_source he]; decide),
        filter_source_nil (fun e he => by rw [fetchVmpEvents_source he]; decide)]
      rfl
    · simp [fetchEvents, fetchUzhEvents]
  · intro h3
    subst h3
    constructor
    · simp only [fetchEvents, List.filter_append]
      rw [show List.filter (fun e => e.source == "VIS") (fetchVisEvents (.error ())) = []
          from rfl,
        filter_source_nil (fun e he => by rw [fetchEthEvents_source he]; decide),
        filter_source_nil (fun e he => by rw [fetchUzhEvents_source he]; decide),
        filter_source_nil (fun e he => by rw [fetchEsnEvents_source he]; decide),
        filter_source_nil (fun e he => by rw [fetchVmpEvents_source he]; decide)]
      rfl
    · simp [fetchEvents, fetchVisEvents]
  · intro h4
    subst h4
    constructor
    · simp only [fetchEvents, List.filter_append]
      rw [show List.filter (fun e => e.source == "ESN") (fetchEsnEvents (.error ())) = []
          from rfl,
        filter_source_nil (fun e he => by rw [fetchEthEvents_source he]; decide),
        filter_source_nil (fun e he => by rw [fetchUzhEvents_source he]; decide),
        filter_source_nil (fun e he => by rw [fetchVisEvents_source he]; decide),
        filter_source_nil (fun e he => by rw [fetchVmpEvents_source he]; decide)]
      rfl
    · simp [fetchEvents, fetchEsnEvents]
  · intro h5
    subst h5
    constructor
    · simp only [fetchEvents, List.filter_append]
      rw [show List.filter (fun e => e.source == "VMP") (fetchVmpEvents (.error ())) = []
          from rfl,
        filter_source_nil (fun e he => by rw [fetchEthEvents_source he]; decide),
        filter_source_nil (fun e he => by rw [fetchUzhEvents_source he]; decide),
        filter_source_nil (fun e he => by rw [fetchVisEvents_source he]; decide),
        filter_source_nil (fun e he => by rw [fetchEsnEvents_source he]; decide)]
      rfl
    · simp [fetchEvents, fetchVmpEvents]

/-- Witness for aggregator resilience, with the ETH fetch failing and
the other adapters given concrete payloads. -/
theorem c7_aggregator_resilience_witness :
    (fetchEvents (.error ()) (.ok none) (.ok []) (.ok { hrefs := [], details := [] })
        (.ok { hrefs := [], details := [] })).filter (fun e => e.source == "ETH") = []
  ∧ fetchEvents (.error ()) (.ok none) (.ok []) (.ok { hrefs := [], details := [] })
        (.ok { hrefs := [], details := [] }) =
      fetchUzhEvents (.ok none) ++ fetchVisEvents (.ok []) ++
        fetchEsnEvents (.ok { hrefs := [], details := [] }) ++
        fetchVmpEvents (.ok { hrefs := [], details := [] }) :=
  (c7_aggregator_resilience (.error ()) (.ok none) (.ok []) (.ok { hrefs := [], details := [] })
    (.ok { hrefs := [], details := [] })).2.1 rfl

/-- A character the finished slug may contain: a lowercase ASCII
letter, a digit, or a hyphen. -/
def isSlugOutChar (c : Char) : Bool :=
  (decide ('a' ≤ c) && decide (c ≤ 'z')) || (decide ('0' ≤ c) && decide (c ≤ '9')) ||
  c == '-'

/-- The no-consecutive-hyphens adjacency relation. -/
def NoHH (a b : Char) : Prop := ¬(a = '-' ∧ b = '-')

/-- The head of a dropWhile tail fails the dropped predicate. -/
theorem head?_dropWhile_false {p : Char → Bool} {l : List Char} {a : Char}
    (h : (l.dropWhile p).head? = some a) : p a = false := by
  induction l with
  | nil => exact absurd h (by simp)
  | cons c rest ih =>
    rw [List.dropWhile_cons] at h
    split at h
    · exact ih h
    · rename_i hc
      simp only [List.head?_cons, Option.some_inj] at h
      rw [← h]
      exact Bool.not_eq_true _ ▸ hc

/-- Members of a dropWhile tail are members of the list. -/
theorem mem_of_mem_dropWhile {p : Char → Bool} {l : List Char} {c : Char}
    (h : c ∈ l.dropWhile p) : c ∈ l :=
  (List.dropWhile_sublist p).mem h

/-- Dropping a prefix never lengthens a list. -/
theorem length_dropWhile_le' (p : Char → Bool) (l : List Char) :
    (l.dropWhile p).length ≤ l.length := by
  induction l with
  | nil => simp [List.dropWhile]
  | cons a rest ih =>
    rw [List.dropWhile_cons]
    split
    · exact Nat.le_succ_of_le ih
    · exact Nat.le_refl _

/-- Squashing hyphen runs preserves the head. -/
theorem squashHyphens_head? (l : List Char) : (squashHyphens l).head? = l.head? := by
  cases l with
  | nil => unfold squashHyphens; rfl
  | cons c rest =>
    unfold squashHyphens
    by_cases hc : (c == '-') = true
    · rw [if_pos hc]
      simp only [List.head?_cons]
      have := beq_iff_eq.mp hc
      rw [this]
    · rw [if_neg hc]
      rfl

/-- Squashed hyphen runs never leave two adjacent hyphens. -/
theorem chain'_squashHyphens : ∀ (n : Nat) (l : List Char), l.length ≤ n →
    List.Chain' NoHH (squashHyphens l)
  | _, [], _ => by
    unfold squashHyphens
    exact List.chain'_nil
  | 0, c :: rest, h => by simp at h
  | n + 1, c :: rest, h => by
    unfold squashHyphens
    by_cases hc : (c == '-') = true
    · rw [if_pos hc]
      apply List.chain'_cons'.mpr
      constructor
      · intro y hy
        rw [squashHyphens_head? _] at hy
        have := head?_dropWhile_false hy
        intro ⟨_, hy'⟩
        rw [hy'] at this
        simp at this
      · exact chain'_squashHyphens n _ (by
          have h1 := length_dropWhile_le' (fun x => x == '-') rest
          have h2 : rest.length ≤ n := by simpa using h
          omega)
    · rw [if_neg hc]
      apply List.chain'_cons'.mpr
      constructor
      · intro y hy
        intro ⟨hcy, _⟩
        rw [hcy] at hc
        simp at hc
      · exact chain'_squashHyphens n rest (by simpa using h)

/-- Members of a hyphen squash come from the original list. -/
theorem mem_squashHyphens : ∀ (n : Nat) (l : List Char) {c : Char}, l.length ≤ n →
    c ∈ squashHyphens l → c ∈ l
  | _, [], _, _, h => by
    unfold squashHyphens at h
    exact absurd h (List.not_mem_nil _)
  | 0, a :: rest, _, hn, _ => by simp at hn
  | n + 1, a :: rest, c, hn, h => by
    unfold squashHyphens at h
    by_cases ha : (a == '-') = true
    · rw [if_pos ha] at h
      cases h with
      | head =>
        rw [beq_iff_eq.mp ha]
        exact List.mem_cons_self _ _
      | tail _ h' =>
        have := mem_squashHyphens n (rest.dropWhile (fun x => x == '-')) (by
          have h1 := length_dropWhile_le' (fun x => x == '-') rest
          have h2 : rest.length ≤ n := by simpa using hn
          omega) h'
        exact List.mem_cons_of_mem _ (mem_of_mem_dropWhile this)
    · rw [if_neg ha] at h
      cases h with
      | head => exact List.mem_cons_self _ _
      | tail _ h' =>
        exact List.mem_cons_of_mem _ (mem_squashHyphens n rest (by simpa using hn) h')

/-- Members of a whitespace squash are hyphens or non-whitespace members
of the original list. -/
theorem mem_squashSpaces : ∀ (n : Nat) (l : List Char) {c : Char}, l.length ≤ n →
    c ∈ squashSpaces l → c = '-' ∨ (c ∈ l ∧ isJsSpace c = false)
  | _, [], _, _, h => by
    unfold squashSpaces at h
    exact absurd h (List.not_mem_nil _)
  | 0, a :: rest, _, hn, _ => by simp at hn
  | n + 1, a :: rest, c, hn, h => by
    unfold squashSpaces at h
    by_cases ha : isJsSpace a = true
    · rw [if_pos ha] at h
      cases h with
      | head => exact Or.inl rfl
      | tail _ h' =>
        have := mem_squashSpaces n (rest.dropWhile isJsSpace) (by
          have h1 := length_dropWhile_le' isJsSpace rest
          have h2 : rest.length ≤ n := by simpa using hn
          omega) h'
        rcases this with h1 | ⟨h1, h2⟩
        · exact Or.inl h1
        · exact Or.inr ⟨List.mem_cons_of_mem _ (mem_of_mem_dropWhile h1), h2⟩
    · rw [if_neg ha] at h
      cases h with
      | head => exact Or.inr ⟨List.mem_cons_self _ _, Bool.not_eq_true _ ▸ ha⟩
      | tail _ h' =>
        rcases mem_squashSpaces n rest (by simpa using hn) h' with h1 | ⟨h1, h2⟩
        · exact Or.inl h1
        · exact Or.inr ⟨List.mem_cons_of_mem _ h1, h2⟩

/-- The no-double-hyphen chain survives reversal. -/
theorem chain'_NoHH_reverse {l : List Char} (h : List.Chain' NoHH l) :
    List.Chain' NoHH l.reverse := by
  rw [List.chain'_reverse]
  exact h.imp (fun a b hab hp => hab ⟨hp.2, hp.1⟩)

/-- The no-double-hyphen chain survives dropping a leading hyphen. -/
theorem chain'_dropLeadHyphen {l : List Char} (h : List.Chain' NoHH l) :
    List.Chain' NoHH (dropLeadHyphen l) := by
  unfold dropLeadHyphen
  split
  · exact h.tail
  · exact h

/-- After dropping one leading hyphen from a chain-clean list, the head
is not a hyphen. -/
theorem head?_dropLeadHyphen {l : List Char} (h : List.Chain' NoHH l) :
    (dropLeadHyphen l).head? ≠ some '-' := by
  unfold dropLeadHyphen
  split
  · rename_i rest
    intro hh
    have hc := List.chain'_cons'.mp h
    exact hc.1 '-' hh ⟨rfl, rfl⟩
  · rename_i hno
    intro hh
    cases hl : l with
    | nil => rw [hl] at hh; exact Option.noConfusion hh
    | cons c rest =>
      rw [hl] at hh
      simp only [List.head?_cons, Option.some_inj] at hh
      exact hno rest (by rw [hl, hh])

/-- The last element of a tail is absent or the last element of the
list. -/
theorem getLast?_tail_cases (l : List Char) :
    l.tail.getLast? = none ∨ l.tail.getLast? = l.getLast? := by
  cases l with
  | nil => exact Or.inl rfl
  | cons a rest =>
    cases rest with
    | nil => exact Or.inl rfl
    | cons b rest2 =>
      right
      simp [List.getLast?_cons_cons]

/-- Dropping a leading hyphen keeps or erases the last element. -/
theorem getLast?_dropLeadHyphen_cases (l : List Char) :
    (dropLeadHyphen l).getLast? = none ∨ (dropLeadHyphen l).getLast? = l.getLast? := by
  unfold dropLeadHyphen
  split
  · rename_i rest
    exact getLast?_tail_cases ('-' :: rest)
  · exact Or.inr rfl

/-- Members survive dropping a leading hyphen. -/
theorem mem_dropLeadHyphen {l : List Char} {c : Char} (h : c ∈ dropLeadHyphen l) : c ∈ l := by
  revert h
  unfold dropLeadHyphen
  split
  · exact fun h => List.mem_cons_of_mem _ h
  · exact id

/-- A kept, non-whitespace character of the removal class is a slug
output character. -/
theorem slugKeep_not_space {c : Char} (h1 : isSlugKeep c = true) (h2 : isJsSpace c = false) :
    isSlugOutChar c = true := by
  simp only [isSlugKeep, Bool.or_eq_true] at h1
  rcases h1 with ((ha | hd) | hs) | hh
  · simp only [isSlugOutChar, Bool.or_eq_true]
    exact Or.inl (Or.inl ha)
  · simp only [isSlugOutChar, Bool.or_eq_true]
    exact Or.inl (Or.inr hd)
  · rw [hs] at h2
    exact Bool.noConfusion h2
  · simp only [isSlugOutChar, Bool.or_eq_true]
    exact Or.inr hh

/-- Every character of the finished slug is a lowercase letter, a digit
or a hyphen. -/
theorem ethTitleSlug_chars (t : String) :
    ∀ c ∈ (ethTitleSlug t).data, isSlugOutChar c = true := by
  intro c hc
  unfold ethTitleSlug at hc
  simp only [List.mem_reverse] at hc
  have hc1 := mem_dropLeadHyphen hc
  rw [List.mem_reverse] at hc1
  have hc2 := mem_dropLeadHyphen hc1
  rw [List.mem_reverse] at hc2
  have hc3 := mem_squashHyphens _ _ (Nat.le_refl _) hc2
  rcases mem_squashSpaces _ _ (Nat.le_refl _) hc3 with h1 | ⟨h1, h2⟩
  · rw [h1]
    rfl
  · exact slugKeep_not_space (List.mem_filter.mp h1).2 h2

/-- The finished slug never contains two adjacent hyphens. -/
theorem ethTitleSlug_chain (t : String) :
    List.Chain' NoHH (ethTitleSlug t).data := by
  unfold ethTitleSlug trimEdgeHyphens
  exact chain'_dropLeadHyphen (chain'_NoHH_reverse
    (chain'_dropLeadHyphen (chain'_NoHH_reverse
      (chain'_squashHyphens _ _ (Nat.le_refl _)))))

/-- The finished slug neither starts nor ends with a hyphen. -/
theorem ethTitleSlug_edges (t : String) :
    (ethTitleSlug t).data.head? ≠ some '-' ∧ (ethTitleSlug t).data.getLast? ≠ some '-' := by
  have hgoal : (ethTitleSlug t).data = trimEdgeHyphens (squashHyphens (squashSpaces
      (List.filter isSlugKeep (List.map foldAccentChar (List.map jsToLowerChar t.data))))) := rfl
  rw [hgoal]
  set x := squashHyphens (squashSpaces
    (List.filter isSlugKeep (List.map foldAccentChar (List.map jsToLowerChar t.data)))) with hx
  have hchain : List.Chain' NoHH x := chain'_squashHyphens _ _ (Nat.le_refl _)
  have hm : List.Chain' NoHH ((dropLeadHyphen x.reverse).reverse) :=
    chain'_NoHH_reverse (chain'_dropLeadHyphen (chain'_NoHH_reverse hchain))
  have htrim : trimEdgeHyphens x = dropLeadHyphen ((dropLeadHyphen x.reverse).reverse) := rfl
  rw [htrim]
  constructor
  · exact head?_dropLeadHyphen hm
  · rcases getLast?_dropLeadHyphen_cases ((dropLeadHyphen x.reverse).reverse) with h | h
    · rw [h]
      exact fun hh => Option.noConfusion hh
    · rw [h, List.getLast?_reverse]
      exact head?_dropLeadHyphen (chain'_NoHH_reverse hchain)

/-- Claim C10: the official URL is `null` exactly when the event lacks a
truthy id or title; an ETH-source event with both gets the details URL
embedding the title slug; and every slug consists only of lowercase
letters, digits and hyphens, with no adjacent, leading or trailing
hyphen. -/
theorem c10_official_event_url (e : Event) (t : String) :
    (getOfficialEventUrl e = none ↔
      (jsTruthyOpt e.id = false ∨ jsTruthyOpt e.content.title = false))
  ∧ (e.source = "ETH" → jsTruthyOpt e.id = true → jsTruthyOpt e.content.title = true →
      getOfficialEventUrl e = some ("https://ethz.ch/en/news-and-events/events/details." ++
        ethTitleSlug (e.content.title.getD "") ++ "." ++ e.id.getD "" ++ ".html"))
  ∧ (∀ c ∈ (ethTitleSlug t).data, isSlugOutChar c = true)
  ∧ List.Chain' NoHH (ethTitleSlug t).data
  ∧ (ethTitleSlug t).data.head? ≠ some '-'
  ∧ (ethTitleSlug t).data.getLast? ≠ some '-' := by
  have hcond : ((!(jsTruthyOpt e.id) || !(jsTruthyOpt e.content.title)) = true) ↔
      (jsTruthyOpt e.id = false ∨ jsTruthyOpt e.content.title = false) := by
    simp [Bool.or_eq_true, Bool.not_eq_true']
  refine ⟨?_, ?_, ethTitleSlug_chars t, ethTitleSlug_chain t,
    (ethTitleSlug_edges t).1, (ethTitleSlug_edges t).2⟩
  · constructor
    · intro h
      by_cases hc : (!(jsTruthyOpt e.id) || !(jsTruthyOpt e.content.title)) = true
      · exact hcond.mp hc
      · exfalso
        simp only [getOfficialEventUrl] at h
        rw [if_neg hc] at h
        repeat' split at h
        all_goals exact Option.noConfusion h
    · intro h
      simp only [getOfficialEventUrl]
      rw [if_pos (hcond.mpr h)]
  · intro hsrc hid htitle
    simp only [getOfficialEventUrl]
    rw [if_neg (by simp [hid, htitle]), hsrc]
    rfl

/-- A concrete ETH-source event with truthy id and title. -/
def c10wEvent : Event :=
  { id := some "12345", source := "ETH"
    content := { title := some "Hello World!", description := none, linkUrl := none,
                 linkBody := none }
    location := none, dateTimeIndication := none, organizers := none, classification := none
    uzh := none, vis := none, esn := none, vmp := none }

/-- Witness for the URL builder claim at a concrete ETH event and
title. -/
theorem c10_official_event_url_witness :
    getOfficialEventUrl c10wEvent = some ("https://ethz.ch/en/news-and-events/events/details." ++
      ethTitleSlug (c10wEvent.content.title.getD "") ++ "." ++ c10wEvent.id.getD "" ++ ".html") :=
  (c10_official_event_url c10wEvent "Hello World!").2.1 rfl (by decide) (by decide)
